import Mathlib

/-!
Shallow embedding of the Wisp multiplexer in `src/main.py` (class
`WispConnection` and its helpers), together with theorems checking the
natural-language specification against it.

Modelling conventions:
* byte strings (`bytes` in Python) are `List Nat` with entries below 256;
* the stream table (`self.active_streams`, a Python dict) is an association
  list with at most one entry per key, insertion replacing in place;
* per-stream asyncio tasks are reflected as scheduler events: a `connectRun`
  event runs a spawned `new_stream` body, a `pumpWs` event runs one iteration
  of the `stream_ws_to_tcp` loop, a `tcpRead` event runs one iteration of the
  `stream_tcp_to_ws` loop.  An event for a stream whose record (and hence
  whose tasks) has been removed is a no-op, mirroring task cancellation in
  `close_stream`;
* TCP sockets opened by `asyncio.open_connection` are numbered handles into a
  list of socket states recording the bytes written to them and whether the
  writer has been closed;
* outcomes of external I/O (whether a connect succeeds, whether a drain
  raises, what a TCP read returns) are oracle parameters of the events.
-/

namespace Wisp

/-- A byte string: each entry is a byte value (below 256). -/
abbrev Bytes := List Nat

/-- main.py line 10. -/
def tcp_size : Nat := 64 * 1024

/-- main.py line 11. -/
def queue_size : Nat := 128

/-- `struct.pack("<B", n)`. -/
def packU8 (n : Nat) : Bytes := [n % 256]

/-- `struct.pack("<I", n)`: 32-bit little-endian. -/
def packU32 (n : Nat) : Bytes :=
  [n % 256, n / 256 % 256, n / 65536 % 256, n / 16777216 % 256]

/-- `struct.pack(packet_format, t, stream_id)` (main.py line 16): a 1-byte
packet type followed by the 32-bit little-endian stream id. -/
def packet_pack (t stream_id : Nat) : Bytes := packU8 t ++ packU32 stream_id

/-- `struct.unpack(packet_format, data[:5])` (main.py line 165): fails with
`struct.error` when `data` holds fewer than 5 bytes.  A wire message is a byte
string, so entries at or above 256 cannot occur; such inputs are rejected so
the function is total over `List Nat`. -/
def unpack_packet (data : Bytes) : Option (Nat × Nat) :=
  match data with
  | t :: a :: b :: c :: d :: _ =>
      if t < 256 && a < 256 && b < 256 && c < 256 && d < 256 then
        some (t, a + 256 * b + 65536 * c + 16777216 * d)
      else none
  | _ => none

/-- `struct.unpack(connect_format, payload[:3])` (main.py line 66): stream
type (u8) and destination port (u16 little-endian); fails when the payload
holds fewer than 3 bytes. -/
def unpack_connect (payload : Bytes) : Option (Nat × Nat) :=
  match payload with
  | t :: p0 :: p1 :: _ =>
      if t < 256 && p0 < 256 && p1 < 256 then some (t, p0 + 256 * p1) else none
  | _ => none

/-- `struct.unpack(close_format, payload)` (main.py line 186): exactly one
byte, otherwise `struct.error`. -/
def unpack_close (payload : Bytes) : Option Nat :=
  match payload with
  | [r] => if r < 256 then some r else none
  | _ => none

/-- Is `b` a UTF-8 continuation byte? -/
def utf8Cont (b : Nat) : Bool := 0x80 ≤ b && b ≤ 0xBF

/-- Validity of a byte string as UTF-8 (RFC 3629: no overlong forms, no
surrogates, nothing above U+10FFFF).  `payload[3:].decode()` in
`new_stream` (main.py line 67) succeeds exactly on valid inputs. -/
def utf8Valid : Bytes → Bool
  | [] => true
  | b :: rest =>
    if b ≤ 0x7F then utf8Valid rest
    else if 0xC2 ≤ b && b ≤ 0xDF then
      match rest with
      | c1 :: rest1 => utf8Cont c1 && utf8Valid rest1
      | [] => false
    else if 0xE0 ≤ b && b ≤ 0xEF then
      match rest with
      | c1 :: c2 :: rest2 =>
          (if b = 0xE0 then 0xA0 ≤ c1 && c1 ≤ 0xBF
           else if b = 0xED then 0x80 ≤ c1 && c1 ≤ 0x9F
           else utf8Cont c1) && utf8Cont c2 && utf8Valid rest2
      | _ => false
    else if 0xF0 ≤ b && b ≤ 0xF4 then
      match rest with
      | c1 :: c2 :: c3 :: rest3 =>
          (if b = 0xF0 then 0x90 ≤ c1 && c1 ≤ 0xBF
           else if b = 0xF4 then 0x80 ≤ c1 && c1 ≤ 0x8F
           else utf8Cont c1) && utf8Cont c2 && utf8Cont c3 && utf8Valid rest3
      | _ => false
    else false

/-- State of one TCP socket opened by `asyncio.open_connection`: the payloads
written to it so far and whether the writer has been closed. -/
structure Sock where
  written : List Bytes
  closed : Bool
deriving Repr, DecidableEq

/-- The default used when reading a socket list out of range. -/
def dfltSock : Sock := { written := [], closed := false }

/-- One entry of `self.active_streams` (main.py lines 169-177).  `reader` and
`writer` hold the socket handle once the connect succeeded.  `connect_task`
holds the CONNECT payload while the spawned `new_stream` has not yet run and
is `none` once it finished.  The two pump booleans record whether the
corresponding tasks exist and are still running. -/
structure Stream where
  reader : Option Nat
  writer : Option Nat
  queue : List Bytes
  connect_task : Option Bytes
  ws_to_tcp_task : Bool
  tcp_to_ws_task : Bool
  packets_sent : Nat
deriving Repr, DecidableEq

/-- The record inserted by the CONNECT branch of `handle_ws`
(main.py lines 169-177). -/
def fresh_stream (payload : Bytes) : Stream :=
  { reader := none, writer := none, queue := [], connect_task := some payload,
    ws_to_tcp_task := false, tcp_to_ws_task := false, packets_sent := 0 }

/-- State of one `WispConnection`: the stream table, the frames sent on the
WebSocket so far (in order), the TCP sockets opened so far, and the log of
`asyncio.open_connection` attempts (hostname bytes and port). -/
structure Conn where
  streams : List (Nat × Stream)
  out : List Bytes
  socks : List Sock
  attempts : List (Bytes × Nat)
deriving Repr, DecidableEq

/-- Dict lookup on the stream table. -/
def lookupS (k : Nat) : List (Nat × Stream) → Option Stream
  | [] => none
  | p :: rest => if p.1 = k then some p.2 else lookupS k rest

/-- Dict assignment on the stream table: replace in place, or append. -/
def insertS (k : Nat) (v : Stream) : List (Nat × Stream) → List (Nat × Stream)
  | [] => [(k, v)]
  | p :: rest => if p.1 = k then (k, v) :: rest else p :: insertS k v rest

/-- Dict deletion on the stream table. -/
def eraseS (k : Nat) (l : List (Nat × Stream)) : List (Nat × Stream) :=
  l.filter (fun p => p.1 != k)

/-- `writer.write(data)` on socket handle `i`. -/
def writeSock (socks : List Sock) (i : Nat) (data : Bytes) : List Sock :=
  match socks.get? i with
  | none => socks
  | some s => socks.set i { s with written := s.written ++ [data] }

/-- `tcp_writer.close()` guarded by `is_closing` (main.py lines 152-154). -/
def closeSockAt (socks : List Sock) (i : Nat) : List Sock :=
  match socks.get? i with
  | none => socks
  | some s => if s.closed then socks else socks.set i { s with closed := true }

/-- `close_tcp` (main.py lines 149-154): no-op on `None`, otherwise close the
writer unless it is already closing. -/
def close_tcp (socks : List Sock) (w : Option Nat) : List Sock :=
  match w with
  | none => socks
  | some i => closeSockAt socks i

/-- The initial CONTINUE packet sent by `setup` (main.py lines 60-63). -/
def setup_packet : Bytes := packet_pack 0x03 0 ++ packU8 queue_size

/-- Connection state right after `setup`. -/
def conn0 : Conn := { streams := [], out := [setup_packet], socks := [], attempts := [] }

/-- `send_close_packet` (main.py lines 126-131): a no-op when the stream id is
absent from the table, otherwise sends CLOSE(stream_id, reason). -/
def send_close_packet (c : Conn) (stream_id reason : Nat) : Conn :=
  if (lookupS stream_id c.streams).isSome then
    { c with out := c.out ++ [packet_pack 0x04 stream_id ++ packU8 reason] }
  else c

/-- `close_stream` (main.py lines 133-147): a no-op when the stream id is
absent, otherwise closes the TCP writer, cancels the stream tasks (reflected
here by the event guards on table membership) and deletes the record. -/
def close_stream (c : Conn) (stream_id : Nat) : Conn :=
  match lookupS stream_id c.streams with
  | none => c
  | some st =>
      { c with socks := close_tcp c.socks st.writer,
               streams := eraseS stream_id c.streams }

/-- Marks the stream's connect task as finished without further effect; this
is what remains of a `new_stream` run that dies in `struct.unpack` or in
`payload[3:].decode()` (main.py lines 66-67) — the exception is swallowed by
asyncio, the record stays. -/
def mark_connect_done (c : Conn) (stream_id : Nat) : Conn :=
  match lookupS stream_id c.streams with
  | none => c
  | some st =>
      let st1 := { st with connect_task := none }
      { c with streams := insertS stream_id st1 c.streams }

/-- `new_stream` (main.py lines 65-87), run when the spawned connect task
executes.  `netOk` abstracts whether `asyncio.open_connection` succeeds; the
attempt is logged in `attempts` either way.  On success a fresh socket handle
is installed as both halves and the two pump tasks are spawned. -/
def new_stream (c : Conn) (stream_id : Nat) (payload : Bytes) (netOk : Bool) : Conn :=
  match unpack_connect payload with
  | none => mark_connect_done c stream_id
  | some (stream_type, destination_port) =>
    let hostname := payload.drop 3
    if utf8Valid hostname = false then mark_connect_done c stream_id
    else if stream_type ≠ 1 then
      close_stream (send_close_packet c stream_id 0x41) stream_id
    else if netOk = false then
      let c1 := { c with attempts := c.attempts ++ [(hostname, destination_port)] }
      close_stream (send_close_packet c1 stream_id 0x42) stream_id
    else
      let s := c.socks.length
      let c1 := { c with socks := c.socks ++ [dfltSock],
                         attempts := c.attempts ++ [(hostname, destination_port)] }
      match lookupS stream_id c1.streams with
      | none => c1
      | some st =>
          let st1 := { st with reader := some s, writer := some s,
                               ws_to_tcp_task := true, tcp_to_ws_task := true,
                               connect_task := none }
          { c1 with streams := insertS stream_id st1 c1.streams }

/-- A scheduler step running the pending connect task of `stream_id`
(spawned at main.py line 168); a no-op if the record is gone (the task was
cancelled) or the task already ran. -/
def connect_run (c : Conn) (stream_id : Nat) (netOk : Bool) : Conn :=
  match lookupS stream_id c.streams with
  | none => c
  | some st =>
    match st.connect_task with
    | none => c
    | some payload => new_stream c stream_id payload netOk

/-- Python evaluates the guard at main.py line 108,
`packets_sent % queue_size / 4 == 0`, as
`(packets_sent % queue_size) / 4 == 0` with true (float) division, and
`(packets_sent % 128) / 4` is zero exactly when `packets_sent % 128` is. -/
def continueTrigger (packets_sent : Nat) : Bool :=
  packets_sent % queue_size == 0

/-- One iteration of the `stream_ws_to_tcp` loop (main.py lines 95-112):
`queue.get()` (suspends on an empty queue, hence a no-op here), `write`,
`drain` — on a drain exception the loop breaks and the task ends — then the
counter update and the periodic CONTINUE.  `drainOk` abstracts whether
`writer.drain()` raises.  The pump only exists once the writer is installed,
so a missing writer is unreachable and treated as a no-op. -/
def stream_ws_to_tcp_step (c : Conn) (stream_id : Nat) (drainOk : Bool) : Conn :=
  match lookupS stream_id c.streams with
  | none => c
  | some st =>
    if st.ws_to_tcp_task = false then c
    else
      match st.queue, st.writer with
      | [], _ => c
      | _ :: _, none => c
      | data :: qrest, some w =>
        let socks1 := writeSock c.socks w data
        if drainOk = false then
          let st1 := { st with queue := qrest, ws_to_tcp_task := false }
          { c with socks := socks1, streams := insertS stream_id st1 c.streams }
        else
          let sent := st.packets_sent + 1
          let st1 := { st with queue := qrest, packets_sent := sent }
          let c1 := { c with socks := socks1, streams := insertS stream_id st1 c.streams }
          if continueTrigger sent then
            let buffer_remaining := queue_size - qrest.length
            { c1 with out := c1.out ++ [packet_pack 0x03 stream_id ++ packU8 buffer_remaining] }
          else c1

/-- One iteration of the `stream_tcp_to_ws` loop (main.py lines 114-124);
`data` is what `reader.read` returned, `[]` meaning EOF, on which the loop
breaks, sends CLOSE(stream_id, 0x02) and closes the stream. -/
def stream_tcp_to_ws_step (c : Conn) (stream_id : Nat) (data : Bytes) : Conn :=
  match lookupS stream_id c.streams with
  | none => c
  | some st =>
    if st.tcp_to_ws_task = false then c
    else if data.isEmpty then
      close_stream (send_close_packet c stream_id 0x02) stream_id
    else
      { c with out := c.out ++ [packet_pack 0x02 stream_id ++ data] }

/-- One pass of the `handle_ws` loop body (main.py lines 156-187) for a
received message.  The second component carries a `struct.error` escaping the
loop (nothing in the body catches it), with the offending message as the
error value. -/
def handle_msg (c : Conn) (data : Bytes) : Conn × Option Bytes :=
  let payload := data.drop 5
  match unpack_packet data with
  | none => (c, some data)
  | some (packet_type, stream_id) =>
    if packet_type = 0x01 then
      ({ c with streams := insertS stream_id (fresh_stream payload) c.streams }, none)
    else if packet_type = 0x02 then
      match lookupS stream_id c.streams with
      | none => (c, none)
      | some st =>
          let st1 := { st with queue := st.queue ++ [payload] }
          ({ c with streams := insertS stream_id st1 c.streams }, none)
    else if packet_type = 0x04 then
      match unpack_close payload with
      | none => (c, some data)
      | some _reason => (close_stream c stream_id, none)
    else (c, none)

/-- The cleanup after the `handle_ws` loop (main.py lines 190-191): close
every stream in the table. -/
def teardown (c : Conn) : Conn :=
  (c.streams.map (fun p => p.1)).foldl (fun acc k => close_stream acc k) c

/-- Scheduler events of one connection: a WebSocket message arriving, the
WebSocket reporting closure, and progress of the per-stream tasks. -/
inductive Ev where
  | msg (data : Bytes)
  | wsClosed
  | connectRun (stream_id : Nat) (netOk : Bool)
  | pumpWs (stream_id : Nat) (drainOk : Bool)
  | tcpRead (stream_id : Nat) (data : Bytes)
deriving Repr, DecidableEq

/-- Effect of one event on the connection state; only a message can raise. -/
def step (c : Conn) : Ev → Conn × Option Bytes
  | .msg data => handle_msg c data
  | .wsClosed => (teardown c, none)
  | .connectRun stream_id netOk => (connect_run c stream_id netOk, none)
  | .pumpWs stream_id drainOk => (stream_ws_to_tcp_step c stream_id drainOk, none)
  | .tcpRead stream_id data => (stream_tcp_to_ws_step c stream_id data, none)

/-- The dispatcher loop interleaved with per-stream task steps: it stops at
the first `ConnectionClosed` (running the teardown, then exiting) or at a
`struct.error` escaping the loop (no teardown). -/
def run (c : Conn) : List Ev → Conn × Option Bytes
  | [] => (c, none)
  | Ev.wsClosed :: _ => (teardown c, none)
  | e :: rest =>
    match step c e with
    | (c1, none) => run c1 rest
    | (c1, some err) => (c1, some err)

/-- Does this outbound message start as a CLOSE packet for `stream_id`? -/
def isCloseFor (stream_id : Nat) (m : Bytes) : Bool :=
  m.take 5 == packet_pack 0x04 stream_id

/-- Number of CLOSE frames for `stream_id` among the sent messages. -/
def closeCount (stream_id : Nat) (l : List Bytes) : Nat :=
  (l.filter (isCloseFor stream_id)).length

/-- The stream id of a CONNECT message event, if `e` is one. -/
def connect_sid (e : Ev) : Option Nat :=
  match e with
  | .msg data =>
    match unpack_packet data with
    | some (t, stream_id) => if t = 1 then some stream_id else none
    | none => none
  | _ => none

/-- How many CONNECT messages for `stream_id` a trace carries. -/
def countConnect (stream_id : Nat) (evs : List Ev) : Nat :=
  (evs.filter (fun e => connect_sid e == some stream_id)).length

/-- 1 when the stream id is in the table, else 0. -/
def memb (stream_id : Nat) (c : Conn) : Nat :=
  if (lookupS stream_id c.streams).isSome then 1 else 0

/-- Iterating the WS→TCP pump. -/
def pumpIter (stream_id : Nat) : Nat → Conn → Conn
  | 0, c => c
  | n + 1, c => pumpIter stream_id n (stream_ws_to_tcp_step c stream_id true)

/-- The keys of the stream table. -/
def keysOf (l : List (Nat × Stream)) : List Nat := l.map (fun p => p.1)

/-- All stream-table keys fit in 32 bits (they come off the wire). -/
def KeysBound (l : List (Nat × Stream)) : Prop := ∀ p ∈ l, p.1 < 2 ^ 32

/-- Every open socket is still referenced as the writer of some stream. -/
def WriterInv (l : List (Nat × Stream)) (socks : List Sock) : Prop :=
  ∀ i s, socks.get? i = some s → s.closed = true ∨ ∃ p ∈ l, p.2.writer = some i

/-! ### Association-list lemmas -/

theorem lookupS_insertS_self (k : Nat) (v : Stream) (l : List (Nat × Stream)) :
    lookupS k (insertS k v l) = some v := by
  induction l with
  | nil => simp [insertS, lookupS]
  | cons p rest ih =>
    by_cases h : p.1 = k
    · simp [insertS, h, lookupS]
    · simp [insertS, h, lookupS, ih]

theorem lookupS_insertS_ne (k k2 : Nat) (v : Stream) (l : List (Nat × Stream))
    (h : k ≠ k2) : lookupS k (insertS k2 v l) = lookupS k l := by
  have h2 : ¬(k2 = k) := fun hh => h hh.symm
  induction l with
  | nil => simp [insertS, lookupS, h2]
  | cons p rest ih =>
    by_cases hp : p.1 = k2
    · have hpk : ¬(p.1 = k) := by rw [hp]; exact h2
      simp [insertS, hp, lookupS, h2, hpk]
    · simp only [insertS, hp, if_false, lookupS]
      by_cases hk : p.1 = k
      · simp [hk]
      · simp [hk, ih]

theorem lookupS_eq_none_iff (k : Nat) (l : List (Nat × Stream)) :
    lookupS k l = none ↔ ∀ p ∈ l, p.1 ≠ k := by
  induction l with
  | nil => simp [lookupS]
  | cons p rest ih =>
    by_cases h : p.1 = k
    · simp [lookupS, h]
    · simp [lookupS, h, ih]

theorem lookupS_eraseS_self (k : Nat) (l : List (Nat × Stream)) :
    lookupS k (eraseS k l) = none := by
  rw [lookupS_eq_none_iff]
  intro p hp
  have := List.of_mem_filter hp
  simpa using this

theorem mem_eraseS {p : Nat × Stream} {k : Nat} {l : List (Nat × Stream)} :
    p ∈ eraseS k l ↔ p ∈ l ∧ p.1 ≠ k := by
  constructor
  · intro h
    refine ⟨List.mem_of_mem_filter h, ?_⟩
    have := List.of_mem_filter h
    simpa using this
  · intro ⟨h1, h2⟩
    exact List.mem_filter.2 ⟨h1, by simpa using h2⟩

theorem lookupS_eraseS_ne (k k2 : Nat) (l : List (Nat × Stream)) (h : k ≠ k2) :
    lookupS k (eraseS k2 l) = lookupS k l := by
  induction l with
  | nil => simp [eraseS, lookupS]
  | cons p rest ih =>
    by_cases hp : p.1 = k2
    · have hk : p.1 ≠ k := by rw [hp]; exact fun hh => h hh.symm
      simp only [eraseS, List.filter] at ih ⊢
      simp only [hp, bne_self_eq_false]
      simp only [lookupS, hk, if_false]
      exact ih
    · simp only [eraseS, List.filter] at ih ⊢
      have : (p.1 != k2) = true := by simpa using hp
      rw [this]
      by_cases hk : p.1 = k
      · simp [lookupS, hk]
      · simp only [lookupS, hk, if_false]
        exact ih

theorem insertS_of_lookupS_none {k : Nat} {v : Stream} {l : List (Nat × Stream)}
    (h : lookupS k l = none) : insertS k v l = l ++ [(k, v)] := by
  induction l with
  | nil => simp [insertS]
  | cons p rest ih =>
    simp only [lookupS] at h
    by_cases hp : p.1 = k
    · simp [hp] at h
    · simp only [hp, if_false] at h
      simp [insertS, hp, ih h]

theorem mem_insertS_self (k : Nat) (v : Stream) (l : List (Nat × Stream)) :
    (k, v) ∈ insertS k v l := by
  induction l with
  | nil => simp [insertS]
  | cons p rest ih =>
    by_cases hp : p.1 = k
    · simp [insertS, hp]
    · simp [insertS, hp, ih]

theorem mem_of_mem_insertS {p : Nat × Stream} {k : Nat} {v : Stream}
    {l : List (Nat × Stream)} (h : p ∈ insertS k v l) : p = (k, v) ∨ p ∈ l := by
  induction l with
  | nil => simpa [insertS] using h
  | cons q rest ih =>
    by_cases hq : q.1 = k
    · simp only [insertS, hq, if_true] at h
      rcases List.mem_cons.1 h with h1 | h1
      · exact Or.inl h1
      · exact Or.inr (List.mem_cons.2 (Or.inr h1))
    · simp only [insertS, hq, if_false] at h
      rcases List.mem_cons.1 h with h1 | h1
      · exact Or.inr (List.mem_cons.2 (Or.inl h1))
      · rcases ih h1 with h2 | h2
        · exact Or.inl h2
        · exact Or.inr (List.mem_cons.2 (Or.inr h2))

theorem mem_insertS_of_ne {p : Nat × Stream} {k : Nat} {v : Stream}
    {l : List (Nat × Stream)} (hp : p ∈ l) (h : p.1 ≠ k) : p ∈ insertS k v l := by
  induction l with
  | nil => simp at hp
  | cons q rest ih =>
    rcases List.mem_cons.1 hp with h1 | h1
    · subst h1
      by_cases hq : p.1 = k
      · exact absurd hq h
      · simp [insertS, hq]
    · by_cases hq : q.1 = k
      · simp only [insertS, hq, if_true]
        exact List.mem_cons.2 (Or.inr h1)
      · simp only [insertS, hq, if_false]
        exact List.mem_cons.2 (Or.inr (ih h1))

theorem lookupS_mem {k : Nat} {v : Stream} {l : List (Nat × Stream)}
    (h : lookupS k l = some v) : (k, v) ∈ l := by
  induction l with
  | nil => simp [lookupS] at h
  | cons p rest ih =>
    by_cases hp : p.1 = k
    · simp only [lookupS, hp, if_true, Option.some.injEq] at h
      have hpv : p = (k, v) := Prod.ext hp h
      rw [← hpv]
      exact List.mem_cons_self p rest
    · simp only [lookupS, hp, if_false] at h
      exact List.mem_cons.2 (Or.inr (ih h))

theorem mem_keysOf_iff {k : Nat} {l : List (Nat × Stream)} :
    k ∈ keysOf l ↔ (lookupS k l).isSome := by
  induction l with
  | nil => simp [keysOf, lookupS]
  | cons p rest ih =>
    by_cases hp : p.1 = k
    · simp [keysOf, lookupS, hp]
    · simp only [keysOf, List.map_cons, List.mem_cons] at ih ⊢
      simp only [lookupS, hp, if_false]
      constructor
      · intro h
        rcases h with h | h
        · exact absurd h.symm hp
        · exact ih.1 h
      · intro h
        exact Or.inr (ih.2 h)

theorem keysOf_insertS_of_some {k : Nat} {v : Stream} {l : List (Nat × Stream)}
    (h : (lookupS k l).isSome) : keysOf (insertS k v l) = keysOf l := by
  induction l with
  | nil => simp [lookupS] at h
  | cons p rest ih =>
    by_cases hp : p.1 = k
    · simp [insertS, hp, keysOf]
    · simp only [lookupS, hp, if_false] at h
      simp [insertS, hp, keysOf, List.map_cons] at ih ⊢
      exact ih h

theorem nodup_keysOf_insertS {k : Nat} {v : Stream} {l : List (Nat × Stream)}
    (h : (keysOf l).Nodup) : (keysOf (insertS k v l)).Nodup := by
  cases hl : lookupS k l with
  | some st =>
    rw [keysOf_insertS_of_some (by simp [hl])]
    exact h
  | none =>
    rw [insertS_of_lookupS_none hl]
    have hk : k ∉ keysOf l := by
      rw [mem_keysOf_iff, hl]
      simp
    simp only [keysOf, List.map_append, List.map_cons, List.map_nil]
    refine List.Nodup.append h (List.nodup_singleton k) ?_
    intro a ha hak
    have hae : a = k := by simpa using hak
    exact hk (hae ▸ ha)

theorem nodup_keysOf_eraseS {k : Nat} {l : List (Nat × Stream)}
    (h : (keysOf l).Nodup) : (keysOf (eraseS k l)).Nodup := by
  unfold keysOf at h ⊢
  have hsub : (eraseS k l).Sublist l := List.filter_sublist l
  exact (hsub.map (fun p => p.1)).nodup h

theorem lookupS_unique {l : List (Nat × Stream)} (hn : (keysOf l).Nodup)
    {p : Nat × Stream} (hm : p ∈ l) : lookupS p.1 l = some p.2 := by
  induction l with
  | nil => simp at hm
  | cons q rest ih =>
    simp only [keysOf, List.map_cons, List.nodup_cons] at hn
    rcases List.mem_cons.1 hm with h1 | h1
    · subst h1
      simp [lookupS]
    · have hne : q.1 ≠ p.1 := by
        intro he
        exact hn.1 (he ▸ List.mem_map_of_mem (fun r => r.1) h1)
      simp only [lookupS, hne, if_false]
      exact ih hn.2 h1

/-! ### Socket-list lemmas -/

theorem length_writeSock (socks : List Sock) (i : Nat) (d : Bytes) :
    (writeSock socks i d).length = socks.length := by
  unfold writeSock
  cases socks.get? i <;> simp

theorem length_closeSockAt (socks : List Sock) (i : Nat) :
    (closeSockAt socks i).length = socks.length := by
  unfold closeSockAt
  cases socks.get? i with
  | none => rfl
  | some s =>
    by_cases h : s.closed <;> simp [h]

theorem length_close_tcp (socks : List Sock) (w : Option Nat) :
    (close_tcp socks w).length = socks.length := by
  cases w with
  | none => rfl
  | some i => exact length_closeSockAt socks i

theorem writeSock_get?_ne (socks : List Sock) (i j : Nat) (d : Bytes) (h : j ≠ i) :
    (writeSock socks i d).get? j = socks.get? j := by
  unfold writeSock
  cases socks.get? i with
  | none => rfl
  | some s => exact List.get?_set_ne _ socks (fun he => h he.symm)

theorem writeSock_get?_self {socks : List Sock} {i : Nat} {s : Sock} (d : Bytes)
    (h : socks.get? i = some s) :
    (writeSock socks i d).get? i = some { s with written := s.written ++ [d] } := by
  unfold writeSock
  rw [h]
  exact List.get?_set_eq_of_lt _ ((List.get?_eq_some.1 h).choose)

theorem closeSockAt_get?_ne (socks : List Sock) (i j : Nat) (h : j ≠ i) :
    (closeSockAt socks i).get? j = socks.get? j := by
  unfold closeSockAt
  cases socks.get? i with
  | none => rfl
  | some s =>
    by_cases hc : s.closed
    · simp [hc]
    · simp only [hc, if_false]
      exact List.get?_set_ne _ socks (fun he => h he.symm)

theorem closeSockAt_get?_self {socks : List Sock} {i : Nat} {s : Sock}
    (h : socks.get? i = some s) :
    ∃ s2, (closeSockAt socks i).get? i = some s2 ∧ s2.closed = true ∧
      s2.written = s.written := by
  have he : closeSockAt socks i
      = if s.closed = true then socks else socks.set i { s with closed := true } := by
    unfold closeSockAt
    rw [h]
  by_cases hc : s.closed = true
  · rw [he, if_pos hc]
    exact ⟨s, h, hc, rfl⟩
  · rw [he, if_neg hc]
    refine ⟨{ s with closed := true }, ?_, rfl, rfl⟩
    exact List.get?_set_eq_of_lt _ ((List.get?_eq_some.1 h).choose)

theorem close_tcp_closed_mono {socks : List Sock} {w : Option Nat} {j : Nat} {s : Sock}
    (h : (close_tcp socks w).get? j = some s) (hs : s.closed = false) :
    ∃ s0, socks.get? j = some s0 ∧ s0.closed = false := by
  cases w with
  | none => exact ⟨s, h, hs⟩
  | some i =>
    have h2 : (closeSockAt socks i).get? j = some s := h
    by_cases hij : j = i
    · subst hij
      cases h0 : socks.get? j with
      | none =>
        have he : closeSockAt socks j = socks := by unfold closeSockAt; rw [h0]
        rw [he, h0] at h2
        cases h2
      | some s0 =>
        rcases closeSockAt_get?_self h0 with ⟨s2, h3, hc2, _⟩
        rw [h2] at h3
        cases h3
        rw [hc2] at hs
        cases hs
    · rw [closeSockAt_get?_ne socks i j hij] at h2
      exact ⟨s, h2, hs⟩

/-! ### Characterisation of the connection operations -/

theorem send_close_packet_streams (c : Conn) (i r : Nat) :
    (send_close_packet c i r).streams = c.streams := by
  unfold send_close_packet
  split <;> rfl

theorem send_close_packet_socks (c : Conn) (i r : Nat) :
    (send_close_packet c i r).socks = c.socks := by
  unfold send_close_packet
  split <;> rfl

theorem send_close_packet_attempts (c : Conn) (i r : Nat) :
    (send_close_packet c i r).attempts = c.attempts := by
  unfold send_close_packet
  split <;> rfl

theorem send_close_packet_of_none {c : Conn} {i : Nat} (r : Nat)
    (h : lookupS i c.streams = none) : send_close_packet c i r = c := by
  unfold send_close_packet
  rw [h]
  rfl

theorem send_close_packet_out_some {c : Conn} {i : Nat} (r : Nat)
    (h : (lookupS i c.streams).isSome) :
    (send_close_packet c i r).out = c.out ++ [packet_pack 0x04 i ++ packU8 r] := by
  unfold send_close_packet
  rw [if_pos h]

theorem close_stream_of_none {c : Conn} {i : Nat}
    (h : lookupS i c.streams = none) : close_stream c i = c := by
  unfold close_stream
  rw [h]

theorem close_stream_of_some {c : Conn} {i : Nat} {st : Stream}
    (h : lookupS i c.streams = some st) :
    close_stream c i
      = { c with socks := close_tcp c.socks st.writer,
                 streams := eraseS i c.streams } := by
  unfold close_stream
  rw [h]

theorem close_stream_out (c : Conn) (i : Nat) : (close_stream c i).out = c.out := by
  unfold close_stream
  cases lookupS i c.streams <;> rfl

theorem close_stream_attempts (c : Conn) (i : Nat) :
    (close_stream c i).attempts = c.attempts := by
  unfold close_stream
  cases lookupS i c.streams <;> rfl

theorem close_stream_socks_length (c : Conn) (i : Nat) :
    (close_stream c i).socks.length = c.socks.length := by
  unfold close_stream
  cases lookupS i c.streams with
  | none => rfl
  | some st => exact length_close_tcp c.socks st.writer

theorem lookupS_close_stream_self (c : Conn) (i : Nat) :
    lookupS i (close_stream c i).streams = none := by
  cases hl : lookupS i c.streams with
  | none => rw [close_stream_of_none hl]; exact hl
  | some st => rw [close_stream_of_some hl]; exact lookupS_eraseS_self i c.streams

theorem lookupS_close_stream_ne {c : Conn} {i j : Nat} (h : j ≠ i) :
    lookupS j (close_stream c i).streams = lookupS j c.streams := by
  cases hl : lookupS i c.streams with
  | none => rw [close_stream_of_none hl]
  | some st => rw [close_stream_of_some hl]; exact lookupS_eraseS_ne j i c.streams h

theorem mark_connect_done_out (c : Conn) (i : Nat) :
    (mark_connect_done c i).out = c.out := by
  unfold mark_connect_done
  cases lookupS i c.streams <;> rfl

theorem mark_connect_done_socks (c : Conn) (i : Nat) :
    (mark_connect_done c i).socks = c.socks := by
  unfold mark_connect_done
  cases lookupS i c.streams <;> rfl

theorem mark_connect_done_attempts (c : Conn) (i : Nat) :
    (mark_connect_done c i).attempts = c.attempts := by
  unfold mark_connect_done
  cases lookupS i c.streams <;> rfl

/-! ### Teardown lemmas -/

theorem foldl_close_stream_out (ks : List Nat) (c : Conn) :
    (ks.foldl (fun acc k => close_stream acc k) c).out = c.out := by
  induction ks generalizing c with
  | nil => rfl
  | cons k ks ih =>
    simp only [List.foldl_cons]
    rw [ih, close_stream_out]

theorem foldl_close_stream_attempts (ks : List Nat) (c : Conn) :
    (ks.foldl (fun acc k => close_stream acc k) c).attempts = c.attempts := by
  induction ks generalizing c with
  | nil => rfl
  | cons k ks ih =>
    simp only [List.foldl_cons]
    rw [ih, close_stream_attempts]

theorem teardown_out (c : Conn) : (teardown c).out = c.out :=
  foldl_close_stream_out _ c

theorem teardown_attempts (c : Conn) : (teardown c).attempts = c.attempts :=
  foldl_close_stream_attempts _ c

theorem foldl_close_stream_streams_nil (ks : List Nat) (c : Conn)
    (h : ∀ p ∈ c.streams, p.1 ∈ ks) :
    (ks.foldl (fun acc k => close_stream acc k) c).streams = [] := by
  induction ks generalizing c with
  | nil =>
    cases hs : c.streams with
    | nil => simp only [List.foldl_nil]; exact hs
    | cons p r =>
      have := h p (by rw [hs]; exact List.mem_cons_self p r)
      simp at this
  | cons k ks ih =>
    simp only [List.foldl_cons]
    apply ih
    intro p hp
    cases hl : lookupS k c.streams with
    | none =>
      rw [close_stream_of_none hl] at hp
      rcases List.mem_cons.1 (h p hp) with h1 | h1
      · exact absurd h1 ((lookupS_eq_none_iff k c.streams).1 hl p hp)
      · exact h1
    | some st =>
      rw [close_stream_of_some hl] at hp
      simp only at hp
      rcases mem_eraseS.1 hp with ⟨hp1, hp2⟩
      rcases List.mem_cons.1 (h p hp1) with h1 | h1
      · exact absurd h1 hp2
      · exact h1

theorem teardown_streams (c : Conn) : (teardown c).streams = [] :=
  foldl_close_stream_streams_nil _ c (fun p hp => List.mem_map_of_mem (fun q => q.1) hp)

/-! ### Packet byte lemmas -/

theorem packU32_inj {a b : Nat} (ha : a < 2 ^ 32) (hb : b < 2 ^ 32)
    (h : packU32 a = packU32 b) : a = b := by
  simp only [packU32, List.cons.injEq, and_true] at h
  obtain ⟨h1, h2, h3, h4⟩ := h
  omega

theorem closeCount_append (sid : Nat) (l : List Bytes) (m : Bytes) :
    closeCount sid (l ++ [m])
      = closeCount sid l + (if isCloseFor sid m then 1 else 0) := by
  unfold closeCount
  rw [List.filter_append, List.length_append]
  congr 1
  by_cases h : isCloseFor sid m
  · simp [h]
  · simp [h]

theorem isCloseFor_self (sid r : Nat) :
    isCloseFor sid (packet_pack 0x04 sid ++ packU8 r) = true := by
  unfold isCloseFor
  rw [beq_iff_eq]
  rfl

theorem isCloseFor_first_byte {sid t : Nat} (sid2 : Nat) {rest : Bytes}
    (h : t % 256 ≠ 4) : isCloseFor sid (packet_pack t sid2 ++ rest) = false := by
  unfold isCloseFor
  rw [beq_eq_false_iff_ne]
  intro he
  have h5 : (packet_pack t sid2 ++ rest).take 5 = packet_pack t sid2 := rfl
  rw [h5] at he
  simp only [packet_pack, packU8, List.cons_append, List.nil_append,
    List.cons.injEq] at he
  exact h (by omega)

theorem isCloseFor_close_ne {sid sid2 : Nat} (hs : sid < 2 ^ 32) (hs2 : sid2 < 2 ^ 32)
    (hne : sid ≠ sid2) (rest : Bytes) :
    isCloseFor sid (packet_pack 0x04 sid2 ++ rest) = false := by
  unfold isCloseFor
  rw [beq_eq_false_iff_ne]
  intro he
  have h5 : (packet_pack 0x04 sid2 ++ rest).take 5 = packet_pack 0x04 sid2 := rfl
  rw [h5] at he
  have hu : packU32 sid2 = packU32 sid := by
    simpa [packet_pack, packU8] using he
  exact hne (packU32_inj hs hs2 hu.symm)

/-! ### Branch characterisations of `handle_msg` -/

theorem handle_msg_err {c : Conn} {data : Bytes}
    (h : unpack_packet data = none) : handle_msg c data = (c, some data) := by
  simp [handle_msg, h]

theorem handle_msg_connect {c : Conn} {data : Bytes} {sid : Nat}
    (h : unpack_packet data = some (1, sid)) :
    handle_msg c data
      = ({ c with streams := insertS sid (fresh_stream (data.drop 5)) c.streams },
         none) := by
  simp [handle_msg, h]

theorem handle_msg_data_none {c : Conn} {data : Bytes} {sid : Nat}
    (h : unpack_packet data = some (2, sid)) (hl : lookupS sid c.streams = none) :
    handle_msg c data = (c, none) := by
  simp [handle_msg, h, hl]

theorem handle_msg_data_some {c : Conn} {data : Bytes} {sid : Nat} {st : Stream}
    (h : unpack_packet data = some (2, sid)) (hl : lookupS sid c.streams = some st) :
    handle_msg c data
      = ({ c with streams :=
            insertS sid ({ st with queue := st.queue ++ [data.drop 5] }) c.streams },
         none) := by
  simp [handle_msg, h, hl]

theorem handle_msg_close_err {c : Conn} {data : Bytes} {sid : Nat}
    (h : unpack_packet data = some (4, sid)) (hc : unpack_close (data.drop 5) = none) :
    handle_msg c data = (c, some data) := by
  simp [handle_msg, h, hc]

theorem handle_msg_close_ok {c : Conn} {data : Bytes} {sid r : Nat}
    (h : unpack_packet data = some (4, sid)) (hc : unpack_close (data.drop 5) = some r) :
    handle_msg c data = (close_stream c sid, none) := by
  simp [handle_msg, h, hc]

theorem handle_msg_other {c : Conn} {data : Bytes} {t sid : Nat}
    (h : unpack_packet data = some (t, sid))
    (h1 : t ≠ 1) (h2 : t ≠ 2) (h4 : t ≠ 4) :
    handle_msg c data = (c, none) := by
  simp [handle_msg, h, h1, h2, h4]

/-! ### Branch characterisations of `new_stream` and `connect_run` -/

theorem new_stream_unpack_err {payload : Bytes} (c : Conn) (sid : Nat) (netOk : Bool)
    (h : unpack_connect payload = none) :
    new_stream c sid payload netOk = mark_connect_done c sid := by
  simp [new_stream, h]

theorem new_stream_utf8_err {payload : Bytes} {t port : Nat} (c : Conn) (sid : Nat)
    (netOk : Bool) (h : unpack_connect payload = some (t, port))
    (hu : utf8Valid (payload.drop 3) = false) :
    new_stream c sid payload netOk = mark_connect_done c sid := by
  simp [new_stream, h, hu]

theorem new_stream_bad_type {payload : Bytes} {t port : Nat} (c : Conn) (sid : Nat)
    (netOk : Bool) (h : unpack_connect payload = some (t, port))
    (hu : utf8Valid (payload.drop 3) = true) (ht : t ≠ 1) :
    new_stream c sid payload netOk
      = close_stream (send_close_packet c sid 0x41) sid := by
  simp [new_stream, h, hu, ht]

theorem new_stream_net_fail {payload : Bytes} {port : Nat} (c : Conn) (sid : Nat)
    (h : unpack_connect payload = some (1, port))
    (hu : utf8Valid (payload.drop 3) = true) :
    new_stream c sid payload false
      = close_stream
          (send_close_packet
            { c with attempts := c.attempts ++ [(payload.drop 3, port)] } sid 0x42)
          sid := by
  simp [new_stream, h, hu]

theorem new_stream_success {payload : Bytes} {port : Nat} {st : Stream} (c : Conn)
    (sid : Nat) (h : unpack_connect payload = some (1, port))
    (hu : utf8Valid (payload.drop 3) = true)
    (hl : lookupS sid c.streams = some st) :
    new_stream c sid payload true
      = { streams := insertS sid
            ({ st with reader := some c.socks.length, writer := some c.socks.length,
                       ws_to_tcp_task := true, tcp_to_ws_task := true,
                       connect_task := none }) c.streams,
          out := c.out,
          socks := c.socks ++ [dfltSock],
          attempts := c.attempts ++ [(payload.drop 3, port)] } := by
  simp [new_stream, h, hu, hl]

theorem connect_run_absent {c : Conn} {sid : Nat} (netOk : Bool)
    (h : lookupS sid c.streams = none) : connect_run c sid netOk = c := by
  simp [connect_run, h]

theorem connect_run_done {c : Conn} {sid : Nat} {st : Stream} (netOk : Bool)
    (h : lookupS sid c.streams = some st) (ht : st.connect_task = none) :
    connect_run c sid netOk = c := by
  simp [connect_run, h, ht]

theorem connect_run_pending {c : Conn} {sid : Nat} {st : Stream} {payload : Bytes}
    (netOk : Bool) (h : lookupS sid c.streams = some st)
    (ht : st.connect_task = some payload) :
    connect_run c sid netOk = new_stream c sid payload netOk := by
  simp [connect_run, h, ht]

/-! ### Branch characterisations of the pump steps -/

theorem pump_absent {c : Conn} {sid : Nat} (drainOk : Bool)
    (h : lookupS sid c.streams = none) :
    stream_ws_to_tcp_step c sid drainOk = c := by
  simp [stream_ws_to_tcp_step, h]

theorem pump_no_task {c : Conn} {sid : Nat} {st : Stream} (drainOk : Bool)
    (h : lookupS sid c.streams = some st) (ht : st.ws_to_tcp_task = false) :
    stream_ws_to_tcp_step c sid drainOk = c := by
  simp [stream_ws_to_tcp_step, h, ht]

theorem pump_empty {c : Conn} {sid : Nat} {st : Stream} (drainOk : Bool)
    (h : lookupS sid c.streams = some st) (hq : st.queue = []) :
    stream_ws_to_tcp_step c sid drainOk = c := by
  by_cases ht : st.ws_to_tcp_task = false
  · simp [stream_ws_to_tcp_step, h, ht]
  · simp [stream_ws_to_tcp_step, h, ht, hq]

theorem pump_drain_fail {c : Conn} {sid : Nat} {st : Stream} {d : Bytes}
    {q : List Bytes} {w : Nat}
    (h : lookupS sid c.streams = some st) (ht : st.ws_to_tcp_task = true)
    (hq : st.queue = d :: q) (hw : st.writer = some w) :
    stream_ws_to_tcp_step c sid false
      = { c with socks := writeSock c.socks w d,
                 streams := insertS sid
                   ({ st with queue := q, ws_to_tcp_task := false }) c.streams } := by
  simp [stream_ws_to_tcp_step, h, ht, hq, hw]

theorem pump_drain_ok {c : Conn} {sid : Nat} {st : Stream} {d : Bytes}
    {q : List Bytes} {w : Nat}
    (h : lookupS sid c.streams = some st) (ht : st.ws_to_tcp_task = true)
    (hq : st.queue = d :: q) (hw : st.writer = some w) :
    stream_ws_to_tcp_step c sid true
      = (if continueTrigger (st.packets_sent + 1) then
          { c with socks := writeSock c.socks w d,
                   streams := insertS sid
                     ({ st with queue := q, packets_sent := st.packets_sent + 1 })
                     c.streams,
                   out := c.out ++ [packet_pack 0x03 sid
                     ++ packU8 (queue_size - q.length)] }
         else
          { c with socks := writeSock c.socks w d,
                   streams := insertS sid
                     ({ st with queue := q, packets_sent := st.packets_sent + 1 })
                     c.streams }) := by
  by_cases hc : continueTrigger (st.packets_sent + 1)
  · simp [stream_ws_to_tcp_step, h, ht, hq, hw, hc]
  · simp [stream_ws_to_tcp_step, h, ht, hq, hw, hc]

theorem tcp_step_absent {c : Conn} {sid : Nat} (data : Bytes)
    (h : lookupS sid c.streams = none) :
    stream_tcp_to_ws_step c sid data = c := by
  simp [stream_tcp_to_ws_step, h]

theorem tcp_step_no_task {c : Conn} {sid : Nat} {st : Stream} (data : Bytes)
    (h : lookupS sid c.streams = some st) (ht : st.tcp_to_ws_task = false) :
    stream_tcp_to_ws_step c sid data = c := by
  simp [stream_tcp_to_ws_step, h, ht]

theorem tcp_step_eof {c : Conn} {sid : Nat} {st : Stream}
    (h : lookupS sid c.streams = some st) (ht : st.tcp_to_ws_task = true) :
    stream_tcp_to_ws_step c sid []
      = close_stream (send_close_packet c sid 0x02) sid := by
  simp [stream_tcp_to_ws_step, h, ht]

theorem tcp_step_data {c : Conn} {sid : Nat} {st : Stream} {data : Bytes}
    (h : lookupS sid c.streams = some st) (ht : st.tcp_to_ws_task = true)
    (hd : data ≠ []) :
    stream_tcp_to_ws_step c sid data
      = { c with out := c.out ++ [packet_pack 0x02 sid ++ data] } := by
  simp [stream_tcp_to_ws_step, h, ht, hd]

/-! ### Small helpers -/

theorem mark_connect_done_of_none {c : Conn} {i : Nat}
    (h : lookupS i c.streams = none) : mark_connect_done c i = c := by
  simp [mark_connect_done, h]

theorem mark_connect_done_of_some {c : Conn} {i : Nat} {st : Stream}
    (h : lookupS i c.streams = some st) :
    mark_connect_done c i
      = { c with streams := insertS i ({ st with connect_task := none }) c.streams } := by
  simp [mark_connect_done, h]

theorem new_stream_success_absent {payload : Bytes} {port : Nat} (c : Conn)
    (sid : Nat) (h : unpack_connect payload = some (1, port))
    (hu : utf8Valid (payload.drop 3) = true)
    (hl : lookupS sid c.streams = none) :
    new_stream c sid payload true
      = { c with socks := c.socks ++ [dfltSock],
                 attempts := c.attempts ++ [(payload.drop 3, port)] } := by
  simp [new_stream, h, hu, hl]

theorem unpack_packet_bounds {data : Bytes} {t sid : Nat}
    (h : unpack_packet data = some (t, sid)) : t < 256 ∧ sid < 2 ^ 32 := by
  unfold unpack_packet at h
  split at h
  · rename_i t0 a b c d rest
    split at h
    · rename_i hg
      simp only [Bool.and_eq_true, decide_eq_true_eq] at hg
      injection h with h1
      injection h1 with ht hs
      subst ht
      subst hs
      obtain ⟨⟨⟨⟨hb1, hb2⟩, hb3⟩, hb4⟩, hb5⟩ := hg
      exact ⟨hb1, by omega⟩
    · cases h
  · cases h

theorem lookupS_key_lt {l : List (Nat × Stream)} {k : Nat} {st : Stream}
    (h : KeysBound l) (hl : lookupS k l = some st) : k < 2 ^ 32 :=
  h (k, st) (lookupS_mem hl)

/-! ### Preservation of `KeysBound` -/

theorem KeysBound_insertS {l : List (Nat × Stream)} {k : Nat} {v : Stream}
    (h : KeysBound l) (hk : k < 2 ^ 32) : KeysBound (insertS k v l) := by
  intro p hp
  rcases mem_of_mem_insertS hp with h1 | h1
  · rw [h1]; exact hk
  · exact h p h1

theorem KeysBound_eraseS {l : List (Nat × Stream)} (k : Nat)
    (h : KeysBound l) : KeysBound (eraseS k l) :=
  fun p hp => h p (mem_eraseS.1 hp).1

theorem KeysBound_send_close (c : Conn) (i r : Nat)
    (h : KeysBound c.streams) : KeysBound (send_close_packet c i r).streams := by
  rw [send_close_packet_streams]; exact h

theorem KeysBound_close_stream (c : Conn) (i : Nat)
    (h : KeysBound c.streams) : KeysBound (close_stream c i).streams := by
  cases hl : lookupS i c.streams with
  | none => rw [close_stream_of_none hl]; exact h
  | some st => rw [close_stream_of_some hl]; exact KeysBound_eraseS i h

theorem KeysBound_mark (c : Conn) (i : Nat)
    (h : KeysBound c.streams) : KeysBound (mark_connect_done c i).streams := by
  cases hl : lookupS i c.streams with
  | none => rw [mark_connect_done_of_none hl]; exact h
  | some st =>
    rw [mark_connect_done_of_some hl]
    exact KeysBound_insertS h (lookupS_key_lt h hl)

theorem KeysBound_new_stream (c : Conn) (sid : Nat) (payload : Bytes) (netOk : Bool)
    (h : KeysBound c.streams) : KeysBound (new_stream c sid payload netOk).streams := by
  cases hc : unpack_connect payload with
  | none => rw [new_stream_unpack_err c sid netOk hc]; exact KeysBound_mark c sid h
  | some tp =>
    obtain ⟨t, port⟩ := tp
    cases hv : utf8Valid (payload.drop 3) with
    | false => rw [new_stream_utf8_err c sid netOk hc hv]; exact KeysBound_mark c sid h
    | true =>
      by_cases ht : t = 1
      · subst ht
        cases netOk with
        | false =>
          rw [new_stream_net_fail c sid hc hv]
          apply KeysBound_close_stream
          apply KeysBound_send_close
          exact h
        | true =>
          cases hl : lookupS sid c.streams with
          | none => rw [new_stream_success_absent c sid hc hv hl]; exact h
          | some st =>
            rw [new_stream_success c sid hc hv hl]
            exact KeysBound_insertS h (lookupS_key_lt h hl)
      · rw [new_stream_bad_type c sid netOk hc hv ht]
        apply KeysBound_close_stream
        apply KeysBound_send_close
        exact h

theorem KeysBound_connect_run (c : Conn) (sid : Nat) (netOk : Bool)
    (h : KeysBound c.streams) : KeysBound (connect_run c sid netOk).streams := by
  cases hl : lookupS sid c.streams with
  | none => rw [connect_run_absent netOk hl]; exact h
  | some st =>
    cases hct : st.connect_task with
    | none => rw [connect_run_done netOk hl hct]; exact h
    | some payload =>
      rw [connect_run_pending netOk hl hct]
      exact KeysBound_new_stream c sid payload netOk h

theorem KeysBound_handle_msg (c : Conn) (data : Bytes)
    (h : KeysBound c.streams) : KeysBound (handle_msg c data).1.streams := by
  cases hp : unpack_packet data with
  | none => rw [handle_msg_err hp]; exact h
  | some ts =>
    obtain ⟨t, sid⟩ := ts
    by_cases h1 : t = 1
    · subst h1
      rw [handle_msg_connect hp]
      exact KeysBound_insertS h (unpack_packet_bounds hp).2
    · by_cases h2 : t = 2
      · subst h2
        cases hl : lookupS sid c.streams with
        | none => rw [handle_msg_data_none hp hl]; exact h
        | some st =>
          rw [handle_msg_data_some hp hl]
          exact KeysBound_insertS h (lookupS_key_lt h hl)
      · by_cases h4 : t = 4
        · subst h4
          cases hc : unpack_close (data.drop 5) with
          | none => rw [handle_msg_close_err hp hc]; exact h
          | some r => rw [handle_msg_close_ok hp hc]; exact KeysBound_close_stream c sid h
        · rw [handle_msg_other hp h1 h2 h4]; exact h

theorem KeysBound_pump (c : Conn) (sid : Nat) (drainOk : Bool)
    (h : KeysBound c.streams) : KeysBound (stream_ws_to_tcp_step c sid drainOk).streams := by
  cases hl : lookupS sid c.streams with
  | none => rw [pump_absent drainOk hl]; exact h
  | some st =>
    cases ht : st.ws_to_tcp_task with
    | false => rw [pump_no_task drainOk hl ht]; exact h
    | true =>
      cases hq : st.queue with
      | nil => rw [pump_empty drainOk hl hq]; exact h
      | cons d q =>
        cases hw : st.writer with
        | none =>
          have he : stream_ws_to_tcp_step c sid drainOk = c := by
            simp [stream_ws_to_tcp_step, hl, ht, hq, hw]
          rw [he]; exact h
        | some w =>
          cases drainOk with
          | false =>
            rw [pump_drain_fail hl ht hq hw]
            exact KeysBound_insertS h (lookupS_key_lt h hl)
          | true =>
            rw [pump_drain_ok hl ht hq hw]
            split
            · exact KeysBound_insertS h (lookupS_key_lt h hl)
            · exact KeysBound_insertS h (lookupS_key_lt h hl)

theorem KeysBound_tcp_step (c : Conn) (sid : Nat) (data : Bytes)
    (h : KeysBound c.streams) : KeysBound (stream_tcp_to_ws_step c sid data).streams := by
  cases hl : lookupS sid c.streams with
  | none => rw [tcp_step_absent data hl]; exact h
  | some st =>
    cases ht : st.tcp_to_ws_task with
    | false => rw [tcp_step_no_task data hl ht]; exact h
    | true =>
      by_cases hd : data = []
      · subst hd
        rw [tcp_step_eof hl ht]
        apply KeysBound_close_stream
        apply KeysBound_send_close
        exact h
      · rw [tcp_step_data hl ht hd]; exact h

theorem KeysBound_teardown (c : Conn) : KeysBound (teardown c).streams := by
  rw [teardown_streams]
  intro p hp
  simp at hp

theorem KeysBound_step (c : Conn) (e : Ev)
    (h : KeysBound c.streams) : KeysBound (step c e).1.streams := by
  cases e with
  | msg data => exact KeysBound_handle_msg c data h
  | wsClosed => exact KeysBound_teardown c
  | connectRun sid netOk => exact KeysBound_connect_run c sid netOk h
  | pumpWs sid drainOk => exact KeysBound_pump c sid drainOk h
  | tcpRead sid data => exact KeysBound_tcp_step c sid data h

theorem KeysBound_run (evs : List Ev) (c : Conn)
    (h : KeysBound c.streams) : KeysBound (run c evs).1.streams := by
  induction evs generalizing c with
  | nil => exact h
  | cons e rest ih =>
    cases e with
    | wsClosed => exact KeysBound_teardown c
    | msg data =>
      show KeysBound (match step c (Ev.msg data) with
        | (c1, none) => run c1 rest
        | (c1, some err) => (c1, some err)).1.streams
      cases hs : step c (Ev.msg data) with
      | mk c1 o =>
        cases o with
        | none =>
          simp only
          have hb : KeysBound c1.streams := by
            have := KeysBound_step c (Ev.msg data) h
            rw [hs] at this
            exact this
          exact ih c1 hb
        | some err =>
          simp only
          have := KeysBound_step c (Ev.msg data) h
          rw [hs] at this
          exact this
    | connectRun sid netOk =>
      have hb := KeysBound_connect_run c sid netOk h
      exact ih _ hb
    | pumpWs sid drainOk =>
      have hb := KeysBound_pump c sid drainOk h
      exact ih _ hb
    | tcpRead sid data =>
      have hb := KeysBound_tcp_step c sid data h
      exact ih _ hb

/-! ### Preservation of key uniqueness -/

theorem Nodup_send_close (c : Conn) (i r : Nat)
    (h : (keysOf c.streams).Nodup) : (keysOf (send_close_packet c i r).streams).Nodup := by
  rw [send_close_packet_streams]; exact h

theorem Nodup_close_stream (c : Conn) (i : Nat)
    (h : (keysOf c.streams).Nodup) : (keysOf (close_stream c i).streams).Nodup := by
  cases hl : lookupS i c.streams with
  | none => rw [close_stream_of_none hl]; exact h
  | some st => rw [close_stream_of_some hl]; exact nodup_keysOf_eraseS h

theorem Nodup_mark (c : Conn) (i : Nat)
    (h : (keysOf c.streams).Nodup) : (keysOf (mark_connect_done c i).streams).Nodup := by
  cases hl : lookupS i c.streams with
  | none => rw [mark_connect_done_of_none hl]; exact h
  | some st =>
    rw [mark_connect_done_of_some hl]
    exact nodup_keysOf_insertS h

theorem Nodup_new_stream (c : Conn) (sid : Nat) (payload : Bytes) (netOk : Bool)
    (h : (keysOf c.streams).Nodup) : (keysOf (new_stream c sid payload netOk).streams).Nodup := by
  cases hc : unpack_connect payload with
  | none => rw [new_stream_unpack_err c sid netOk hc]; exact Nodup_mark c sid h
  | some tp =>
    obtain ⟨t, port⟩ := tp
    cases hv : utf8Valid (payload.drop 3) with
    | false => rw [new_stream_utf8_err c sid netOk hc hv]; exact Nodup_mark c sid h
    | true =>
      by_cases ht : t = 1
      · subst ht
        cases netOk with
        | false =>
          rw [new_stream_net_fail c sid hc hv]
          apply Nodup_close_stream
          apply Nodup_send_close
          exact h
        | true =>
          cases hl : lookupS sid c.streams with
          | none => rw [new_stream_success_absent c sid hc hv hl]; exact h
          | some st =>
            rw [new_stream_success c sid hc hv hl]
            exact nodup_keysOf_insertS h
      · rw [new_stream_bad_type c sid netOk hc hv ht]
        apply Nodup_close_stream
        apply Nodup_send_close
        exact h

theorem Nodup_connect_run (c : Conn) (sid : Nat) (netOk : Bool)
    (h : (keysOf c.streams).Nodup) : (keysOf (connect_run c sid netOk).streams).Nodup := by
  cases hl : lookupS sid c.streams with
  | none => rw [connect_run_absent netOk hl]; exact h
  | some st =>
    cases hct : st.connect_task with
    | none => rw [connect_run_done netOk hl hct]; exact h
    | some payload =>
      rw [connect_run_pending netOk hl hct]
      exact Nodup_new_stream c sid payload netOk h

theorem Nodup_handle_msg (c : Conn) (data : Bytes)
    (h : (keysOf c.streams).Nodup) : (keysOf (handle_msg c data).1.streams).Nodup := by
  cases hp : unpack_packet data with
  | none => rw [handle_msg_err hp]; exact h
  | some ts =>
    obtain ⟨t, sid⟩ := ts
    by_cases h1 : t = 1
    · subst h1
      rw [handle_msg_connect hp]
      exact nodup_keysOf_insertS h
    · by_cases h2 : t = 2
      · subst h2
        cases hl : lookupS sid c.streams with
        | none => rw [handle_msg_data_none hp hl]; exact h
        | some st =>
          rw [handle_msg_data_some hp hl]
          exact nodup_keysOf_insertS h
      · by_cases h4 : t = 4
        · subst h4
          cases hc : unpack_close (data.drop 5) with
          | none => rw [handle_msg_close_err hp hc]; exact h
          | some r => rw [handle_msg_close_ok hp hc]; exact Nodup_close_stream c sid h
        · rw [handle_msg_other hp h1 h2 h4]; exact h

theorem Nodup_pump (c : Conn) (sid : Nat) (drainOk : Bool)
    (h : (keysOf c.streams).Nodup) : (keysOf (stream_ws_to_tcp_step c sid drainOk).streams).Nodup := by
  cases hl : lookupS sid c.streams with
  | none => rw [pump_absent drainOk hl]; exact h
  | some st =>
    cases ht : st.ws_to_tcp_task with
    | false => rw [pump_no_task drainOk hl ht]; exact h
    | true =>
      cases hq : st.queue with
      | nil => rw [pump_empty drainOk hl hq]; exact h
      | cons d q =>
        cases hw : st.writer with
        | none =>
          have he : stream_ws_to_tcp_step c sid drainOk = c := by
            simp [stream_ws_to_tcp_step, hl, ht, hq, hw]
          rw [he]; exact h
        | some w =>
          cases drainOk with
          | false =>
            rw [pump_drain_fail hl ht hq hw]
            exact nodup_keysOf_insertS h
          | true =>
            rw [pump_drain_ok hl ht hq hw]
            split
            · exact nodup_keysOf_insertS h
            · exact nodup_keysOf_insertS h

theorem Nodup_tcp_step (c : Conn) (sid : Nat) (data : Bytes)
    (h : (keysOf c.streams).Nodup) : (keysOf (stream_tcp_to_ws_step c sid data).streams).Nodup := by
  cases hl : lookupS sid c.streams with
  | none => rw [tcp_step_absent data hl]; exact h
  | some st =>
    cases ht : st.tcp_to_ws_task with
    | false => rw [tcp_step_no_task data hl ht]; exact h
    | true =>
      by_cases hd : data = []
      · subst hd
        rw [tcp_step_eof hl ht]
        apply Nodup_close_stream
        apply Nodup_send_close
        exact h
      · rw [tcp_step_data hl ht hd]; exact h

theorem Nodup_teardown (c : Conn) : (keysOf (teardown c).streams).Nodup := by
  rw [teardown_streams]
  simp [keysOf]

theorem Nodup_step (c : Conn) (e : Ev)
    (h : (keysOf c.streams).Nodup) : (keysOf (step c e).1.streams).Nodup := by
  cases e with
  | msg data => exact Nodup_handle_msg c data h
  | wsClosed => exact Nodup_teardown c
  | connectRun sid netOk => exact Nodup_connect_run c sid netOk h
  | pumpWs sid drainOk => exact Nodup_pump c sid drainOk h
  | tcpRead sid data => exact Nodup_tcp_step c sid data h

theorem Nodup_run (evs : List Ev) (c : Conn)
    (h : (keysOf c.streams).Nodup) : (keysOf (run c evs).1.streams).Nodup := by
  induction evs generalizing c with
  | nil => exact h
  | cons e rest ih =>
    cases e with
    | wsClosed => exact Nodup_teardown c
    | msg data =>
      show (keysOf (match step c (Ev.msg data) with
        | (c1, none) => run c1 rest
        | (c1, some err) => (c1, some err)).1.streams).Nodup
      cases hs : step c (Ev.msg data) with
      | mk c1 o =>
        cases o with
        | none =>
          simp only
          have hb : (keysOf c1.streams).Nodup := by
            have := Nodup_step c (Ev.msg data) h
            rw [hs] at this
            exact this
          exact ih c1 hb
        | some err =>
          simp only
          have := Nodup_step c (Ev.msg data) h
          rw [hs] at this
          exact this
    | connectRun sid netOk => exact ih _ (Nodup_connect_run c sid netOk h)
    | pumpWs sid drainOk => exact ih _ (Nodup_pump c sid drainOk h)
    | tcpRead sid data => exact ih _ (Nodup_tcp_step c sid data h)

/-! ### Counting CLOSE frames (claim C5 machinery) -/

theorem memb_nil_streams {c : Conn} (h : c.streams = []) : memb sid c = 0 := by
  unfold memb
  rw [h]
  rfl

theorem countConnect_cons (sid : Nat) (e : Ev) (rest : List Ev) :
    countConnect sid (e :: rest)
      = (if connect_sid e = some sid then 1 else 0) + countConnect sid rest := by
  unfold countConnect
  by_cases h : connect_sid e = some sid
  · rw [List.filter_cons_of_pos (by simpa using h)]
    rw [if_pos h, List.length_cons]
    omega
  · rw [List.filter_cons_of_neg (by simpa using h)]
    rw [if_neg h]
    omega

theorem connect_sid_msg_connect {data : Bytes} {sid2 : Nat}
    (h : unpack_packet data = some (1, sid2)) :
    connect_sid (Ev.msg data) = some sid2 := by
  simp [connect_sid, h]

theorem connect_sid_msg_other {data : Bytes} {t sid2 : Nat}
    (h : unpack_packet data = some (t, sid2)) (h1 : t ≠ 1) :
    connect_sid (Ev.msg data) = none := by
  simp [connect_sid, h, h1]

theorem connect_sid_msg_err {data : Bytes}
    (h : unpack_packet data = none) : connect_sid (Ev.msg data) = none := by
  simp [connect_sid, h]

theorem closeMemb_pair {sid : Nat} (hsid : sid < 2 ^ 32) (c : Conn)
    (hb : KeysBound c.streams) (sid2 r : Nat) :
    closeCount sid (close_stream (send_close_packet c sid2 r) sid2).out
      + memb sid (close_stream (send_close_packet c sid2 r) sid2)
    ≤ closeCount sid c.out + memb sid c := by
  cases hl : lookupS sid2 c.streams with
  | none =>
    rw [send_close_packet_of_none r hl, close_stream_of_none hl]
  | some st2 =>
    have hstreams : (send_close_packet c sid2 r).streams = c.streams :=
      send_close_packet_streams c sid2 r
    have hout : (send_close_packet c sid2 r).out
        = c.out ++ [packet_pack 0x04 sid2 ++ packU8 r] :=
      send_close_packet_out_some r (by rw [hl]; rfl)
    rw [close_stream_out, hout, closeCount_append]
    by_cases hss : sid = sid2
    · subst hss
      simp only [isCloseFor_self, if_true]
      have hm2 : memb sid (close_stream (send_close_packet c sid r) sid) = 0 := by
        unfold memb
        rw [lookupS_close_stream_self]
        rfl
      have hm1 : memb sid c = 1 := by
        unfold memb
        rw [hl]
        rfl
      omega
    · have hne := isCloseFor_close_ne hsid (lookupS_key_lt hb hl) hss (packU8 r)
      simp only [hne, Bool.false_eq_true, if_false]
      have hm2 : memb sid (close_stream (send_close_packet c sid2 r) sid2)
          = memb sid c := by
        unfold memb
        rw [lookupS_close_stream_ne hss, hstreams]
      omega

theorem closeMemb_mark (sid : Nat) (c : Conn) (i : Nat) :
    closeCount sid (mark_connect_done c i).out + memb sid (mark_connect_done c i)
      = closeCount sid c.out + memb sid c := by
  cases hl : lookupS i c.streams with
  | none => rw [mark_connect_done_of_none hl]
  | some st =>
    rw [mark_connect_done_of_some hl]
    have hm : memb sid
        ({ c with streams := insertS i ({ st with connect_task := none }) c.streams })
        = memb sid c := by
      unfold memb
      by_cases hss : sid = i
      · subst hss
        simp only
        rw [lookupS_insertS_self, hl]
        rfl
      · simp only
        rw [lookupS_insertS_ne sid i _ _ hss]
    rw [hm]

theorem closeMemb_insert_same (sid : Nat) (c : Conn) (i : Nat) {st : Stream}
    (v : Stream) (hl : lookupS i c.streams = some st) (o2 : List Bytes)
    (l2 : List Sock) (a2 : List (Bytes × Nat)) :
    memb sid { streams := insertS i v c.streams, out := o2, socks := l2,
               attempts := a2 } = memb sid c := by
  unfold memb
  by_cases hss : sid = i
  · subst hss
    simp only
    rw [lookupS_insertS_self, hl]
    rfl
  · simp only
    rw [lookupS_insertS_ne sid i _ _ hss]

theorem cm_le (sid : Nat) (c X : Conn) (K : Nat)
    (hout : closeCount sid X.out = closeCount sid c.out)
    (hm : memb sid X ≤ memb sid c + K) :
    closeCount sid X.out + memb sid X ≤ closeCount sid c.out + memb sid c + K := by
  rw [hout]
  omega

theorem closeMemb_step (sid : Nat) (hsid : sid < 2 ^ 32) (c : Conn)
    (hb : KeysBound c.streams) (e : Ev) :
    closeCount sid (step c e).1.out + memb sid (step c e).1
      ≤ closeCount sid c.out + memb sid c
        + (if connect_sid e = some sid then 1 else 0) := by
  cases e with
  | wsClosed =>
    have h0 : (if connect_sid Ev.wsClosed = some sid then 1 else 0) = 0 := rfl
    rw [h0]
    have hm : memb sid (teardown c) = 0 := memb_nil_streams (teardown_streams c)
    show closeCount sid (teardown c).out + memb sid (teardown c)
      ≤ closeCount sid c.out + memb sid c + 0
    rw [teardown_out, hm]
    omega
  | msg data =>
    show closeCount sid (handle_msg c data).1.out + memb sid (handle_msg c data).1 ≤ _
    cases hp : unpack_packet data with
    | none =>
      have hfst : (handle_msg c data).1 = c := by rw [handle_msg_err hp]
      rw [hfst]
      exact Nat.le_add_right _ _
    | some ts =>
      obtain ⟨t, sid2⟩ := ts
      by_cases h1 : t = 1
      · subst h1
        have hfst : (handle_msg c data).1
            = { c with streams := insertS sid2 (fresh_stream (data.drop 5)) c.streams } := by
          rw [handle_msg_connect hp]
        rw [hfst, connect_sid_msg_connect hp]
        by_cases hss : sid = sid2
        · subst hss
          rw [if_pos rfl]
          refine cm_le sid c _ 1 rfl ?_
          have hm : memb sid
              ({ c with streams := insertS sid (fresh_stream (data.drop 5)) c.streams })
              = 1 := by
            unfold memb
            simp only
            rw [lookupS_insertS_self]
            rfl
          rw [hm]
          have h2 := Nat.zero_le (memb sid c)
          omega
        · rw [if_neg (fun hh => hss (Option.some.inj hh).symm)]
          refine cm_le sid c _ 0 rfl ?_
          have hm : memb sid
              ({ c with streams := insertS sid2 (fresh_stream (data.drop 5)) c.streams })
              = memb sid c := by
            unfold memb
            simp only
            rw [lookupS_insertS_ne sid sid2 _ _ hss]
          rw [hm]
          omega
      · rw [connect_sid_msg_other hp h1, if_neg (fun hh => by cases hh)]
        by_cases h2 : t = 2
        · subst h2
          cases hl : lookupS sid2 c.streams with
          | none =>
            have hfst : (handle_msg c data).1 = c := by rw [handle_msg_data_none hp hl]
            rw [hfst]
            exact Nat.le_add_right _ _
          | some st =>
            have hfst : (handle_msg c data).1
                = { c with streams :=
                    insertS sid2 ({ st with queue := st.queue ++ [data.drop 5] }) c.streams } := by
              rw [handle_msg_data_some hp hl]
            rw [hfst]
            refine cm_le sid c _ 0 rfl ?_
            rw [closeMemb_insert_same sid c sid2 _ hl _ _ _]
            omega
        · by_cases h4 : t = 4
          · subst h4
            cases hcl : unpack_close (data.drop 5) with
            | none =>
              have hfst : (handle_msg c data).1 = c := by rw [handle_msg_close_err hp hcl]
              rw [hfst]
              exact Nat.le_add_right _ _
            | some r =>
              have hfst : (handle_msg c data).1 = close_stream c sid2 := by
                rw [handle_msg_close_ok hp hcl]
              rw [hfst]
              refine cm_le sid c _ 0 (by rw [close_stream_out]) ?_
              have hm : memb sid (close_stream c sid2) ≤ memb sid c := by
                unfold memb
                by_cases hss : sid = sid2
                · subst hss
                  rw [lookupS_close_stream_self]
                  simp
                · rw [lookupS_close_stream_ne hss]
              omega
          · have hfst : (handle_msg c data).1 = c := by rw [handle_msg_other hp h1 h2 h4]
            rw [hfst]
            exact Nat.le_add_right _ _
  | connectRun sid2 netOk =>
    have h0 : (if connect_sid (Ev.connectRun sid2 netOk) = some sid then 1 else 0) = 0 := rfl
    rw [h0]
    show closeCount sid (connect_run c sid2 netOk).out
      + memb sid (connect_run c sid2 netOk) ≤ closeCount sid c.out + memb sid c + 0
    cases hl : lookupS sid2 c.streams with
    | none =>
      rw [connect_run_absent netOk hl]
      omega
    | some st =>
      cases hct : st.connect_task with
      | none =>
        rw [connect_run_done netOk hl hct]
        omega
      | some payload =>
        rw [connect_run_pending netOk hl hct]
        cases hcp : unpack_connect payload with
        | none =>
          rw [new_stream_unpack_err c sid2 netOk hcp]
          have := closeMemb_mark sid c sid2
          omega
        | some tp =>
          obtain ⟨t, port⟩ := tp
          cases hv : utf8Valid (payload.drop 3) with
          | false =>
            rw [new_stream_utf8_err c sid2 netOk hcp hv]
            have := closeMemb_mark sid c sid2
            omega
          | true =>
            by_cases ht : t = 1
            · subst ht
              cases netOk with
              | false =>
                rw [new_stream_net_fail c sid2 hcp hv]
                have hp2 := closeMemb_pair hsid
                  ({ c with attempts := c.attempts ++ [(payload.drop 3, port)] })
                  hb sid2 0x42
                have hp3 : closeCount sid
                    (close_stream (send_close_packet
                      ({ c with attempts := c.attempts ++ [(payload.drop 3, port)] })
                      sid2 0x42) sid2).out
                    + memb sid (close_stream (send_close_packet
                      ({ c with attempts := c.attempts ++ [(payload.drop 3, port)] })
                      sid2 0x42) sid2)
                    ≤ closeCount sid c.out + memb sid c := hp2
                omega
              | true =>
                cases hl2 : lookupS sid2 c.streams with
                | none =>
                  rw [hl2] at hl
                  cases hl
                | some st2 =>
                  rw [new_stream_success c sid2 hcp hv hl2]
                  refine cm_le sid c _ 0 rfl ?_
                  rw [closeMemb_insert_same sid c sid2 _ hl2 _ _ _]
                  omega
            · rw [new_stream_bad_type c sid2 netOk hcp hv ht]
              have hp2 := closeMemb_pair hsid c hb sid2 0x41
              omega
  | pumpWs sid2 drainOk =>
    have h0 : (if connect_sid (Ev.pumpWs sid2 drainOk) = some sid then 1 else 0) = 0 := rfl
    rw [h0]
    show closeCount sid (stream_ws_to_tcp_step c sid2 drainOk).out
      + memb sid (stream_ws_to_tcp_step c sid2 drainOk)
      ≤ closeCount sid c.out + memb sid c + 0
    cases hl : lookupS sid2 c.streams with
    | none =>
      rw [pump_absent drainOk hl]
      omega
    | some st =>
      cases ht : st.ws_to_tcp_task with
      | false =>
        rw [pump_no_task drainOk hl ht]
        omega
      | true =>
        cases hq : st.queue with
        | nil =>
          rw [pump_empty drainOk hl hq]
          omega
        | cons d q =>
          cases hw : st.writer with
          | none =>
            have he : stream_ws_to_tcp_step c sid2 drainOk = c := by
              simp [stream_ws_to_tcp_step, hl, ht, hq, hw]
            rw [he]
            omega
          | some w =>
            cases drainOk with
            | false =>
              rw [pump_drain_fail hl ht hq hw]
              refine cm_le sid c _ 0 rfl ?_
              rw [closeMemb_insert_same sid c sid2 _ hl _ _ _]
              omega
            | true =>
              rw [pump_drain_ok hl ht hq hw]
              split
              · refine cm_le sid c _ 0 ?_ ?_
                · show closeCount sid (c.out
                    ++ [packet_pack 0x03 sid2 ++ packU8 (queue_size - q.length)])
                    = closeCount sid c.out
                  rw [closeCount_append, isCloseFor_first_byte sid2 (by norm_num)]
                  simp
                · rw [closeMemb_insert_same sid c sid2 _ hl _ _ _]
                  omega
              · refine cm_le sid c _ 0 rfl ?_
                rw [closeMemb_insert_same sid c sid2 _ hl _ _ _]
                omega
  | tcpRead sid2 data =>
    have h0 : (if connect_sid (Ev.tcpRead sid2 data) = some sid then 1 else 0) = 0 := rfl
    rw [h0]
    show closeCount sid (stream_tcp_to_ws_step c sid2 data).out
      + memb sid (stream_tcp_to_ws_step c sid2 data)
      ≤ closeCount sid c.out + memb sid c + 0
    cases hl : lookupS sid2 c.streams with
    | none =>
      rw [tcp_step_absent data hl]
      omega
    | some st =>
      cases ht : st.tcp_to_ws_task with
      | false =>
        rw [tcp_step_no_task data hl ht]
        omega
      | true =>
        by_cases hd : data = []
        · subst hd
          rw [tcp_step_eof hl ht]
          have hp2 := closeMemb_pair hsid c hb sid2 0x02
          omega
        · rw [tcp_step_data hl ht hd]
          refine cm_le sid c _ 0 ?_ ?_
          · show closeCount sid (c.out ++ [packet_pack 0x02 sid2 ++ data])
              = closeCount sid c.out
            rw [closeCount_append, isCloseFor_first_byte sid2 (by norm_num)]
            simp
          · show memb sid c ≤ memb sid c + 0
            omega

theorem closeMemb_run (sid : Nat) (hsid : sid < 2 ^ 32) (evs : List Ev) (c : Conn)
    (hb : KeysBound c.streams) :
    closeCount sid (run c evs).1.out + memb sid (run c evs).1
      ≤ closeCount sid c.out + memb sid c + countConnect sid evs := by
  induction evs generalizing c with
  | nil =>
    show closeCount sid c.out + memb sid c ≤ _
    have h0 : countConnect sid [] = 0 := rfl
    rw [h0]
    omega
  | cons e rest ih =>
    rw [countConnect_cons]
    have hs := closeMemb_step sid hsid c hb e
    have hkb := KeysBound_step c e hb
    cases e with
    | wsClosed =>
      show closeCount sid (teardown c).out + memb sid (teardown c) ≤ _
      have hs2 : closeCount sid (teardown c).out + memb sid (teardown c)
          ≤ closeCount sid c.out + memb sid c + 0 := by
        have h0 : (if connect_sid Ev.wsClosed = some sid then 1 else 0) = 0 := rfl
        rw [h0] at hs
        exact hs
      have h0 : (if connect_sid Ev.wsClosed = some sid then 1 else 0) = 0 := rfl
      rw [h0]
      have h1 := Nat.zero_le (countConnect sid rest)
      omega
    | msg data =>
      cases hstep : handle_msg c data with
      | mk c1 o =>
        have hs2 : closeCount sid c1.out + memb sid c1
            ≤ closeCount sid c.out + memb sid c
              + (if connect_sid (Ev.msg data) = some sid then 1 else 0) := by
          have h3 := hs
          rw [show step c (Ev.msg data) = (c1, o) from hstep] at h3
          exact h3
        have hkb2 : KeysBound c1.streams := by
          have h3 := hkb
          rw [show step c (Ev.msg data) = (c1, o) from hstep] at h3
          exact h3
        cases o with
        | none =>
          have hrun : run c (Ev.msg data :: rest) = run c1 rest := by
            show (match step c (Ev.msg data) with
              | (c2, none) => run c2 rest
              | (c2, some err) => (c2, some err)) = run c1 rest
            rw [show step c (Ev.msg data) = (c1, none) from hstep]
          rw [hrun]
          have hih := ih c1 hkb2
          omega
        | some err =>
          have hrun : run c (Ev.msg data :: rest) = (c1, some err) := by
            show (match step c (Ev.msg data) with
              | (c2, none) => run c2 rest
              | (c2, some err) => (c2, some err)) = (c1, some err)
            rw [show step c (Ev.msg data) = (c1, some err) from hstep]
          rw [hrun]
          show closeCount sid c1.out + memb sid c1 ≤ _
          have h1 := Nat.zero_le (countConnect sid rest)
          omega
    | connectRun sid2 netOk =>
      have hs2 : closeCount sid (connect_run c sid2 netOk).out
          + memb sid (connect_run c sid2 netOk)
          ≤ closeCount sid c.out + memb sid c + 0 := by
        have h0 : (if connect_sid (Ev.connectRun sid2 netOk) = some sid then 1 else 0)
            = 0 := rfl
        rw [h0] at hs
        exact hs
      have hkb2 : KeysBound (connect_run c sid2 netOk).streams := hkb
      have hih := ih _ hkb2
      show closeCount sid (run (connect_run c sid2 netOk) rest).1.out
        + memb sid (run (connect_run c sid2 netOk) rest).1 ≤ _
      have h0 : (if connect_sid (Ev.connectRun sid2 netOk) = some sid then 1 else 0)
          = 0 := rfl
      rw [h0]
      omega
    | pumpWs sid2 drainOk =>
      have hs2 : closeCount sid (stream_ws_to_tcp_step c sid2 drainOk).out
          + memb sid (stream_ws_to_tcp_step c sid2 drainOk)
          ≤ closeCount sid c.out + memb sid c + 0 := by
        have h0 : (if connect_sid (Ev.pumpWs sid2 drainOk) = some sid then 1 else 0)
            = 0 := rfl
        rw [h0] at hs
        exact hs
      have hkb2 : KeysBound (stream_ws_to_tcp_step c sid2 drainOk).streams := hkb
      have hih := ih _ hkb2
      show closeCount sid (run (stream_ws_to_tcp_step c sid2 drainOk) rest).1.out
        + memb sid (run (stream_ws_to_tcp_step c sid2 drainOk) rest).1 ≤ _
      have h0 : (if connect_sid (Ev.pumpWs sid2 drainOk) = some sid then 1 else 0)
          = 0 := rfl
      rw [h0]
      omega
    | tcpRead sid2 data =>
      have hs2 : closeCount sid (stream_tcp_to_ws_step c sid2 data).out
          + memb sid (stream_tcp_to_ws_step c sid2 data)
          ≤ closeCount sid c.out + memb sid c + 0 := by
        have h0 : (if connect_sid (Ev.tcpRead sid2 data) = some sid then 1 else 0)
            = 0 := rfl
        rw [h0] at hs
        exact hs
      have hkb2 : KeysBound (stream_tcp_to_ws_step c sid2 data).streams := hkb
      have hih := ih _ hkb2
      show closeCount sid (run (stream_tcp_to_ws_step c sid2 data) rest).1.out
        + memb sid (run (stream_tcp_to_ws_step c sid2 data) rest).1 ≤ _
      have h0 : (if connect_sid (Ev.tcpRead sid2 data) = some sid then 1 else 0)
          = 0 := rfl
      rw [h0]
      omega

/-! ### The outbound log only grows -/

theorem closeCount_prefix_le (sid : Nat) (l tail : List Bytes) :
    closeCount sid l ≤ closeCount sid (l ++ tail) := by
  unfold closeCount
  rw [List.filter_append, List.length_append]
  exact Nat.le_add_right _ _

theorem out_extend_pair (c : Conn) (sid2 r : Nat) :
    ∃ tail, (close_stream (send_close_packet c sid2 r) sid2).out = c.out ++ tail := by
  rw [close_stream_out]
  cases hl : lookupS sid2 c.streams with
  | none =>
    rw [send_close_packet_of_none r hl]
    exact ⟨[], by simp⟩
  | some st =>
    rw [send_close_packet_out_some r (by rw [hl]; rfl)]
    exact ⟨_, rfl⟩

theorem out_extend_step (c : Conn) (e : Ev) :
    ∃ tail, (step c e).1.out = c.out ++ tail := by
  cases e with
  | wsClosed =>
    refine ⟨[], ?_⟩
    show (teardown c).out = c.out ++ []
    rw [teardown_out]
    simp
  | msg data =>
    show ∃ tail, (handle_msg c data).1.out = c.out ++ tail
    cases hp : unpack_packet data with
    | none =>
      rw [handle_msg_err hp]
      exact ⟨[], by simp⟩
    | some ts =>
      obtain ⟨t, sid2⟩ := ts
      by_cases h1 : t = 1
      · subst h1
        rw [handle_msg_connect hp]
        exact ⟨[], by simp⟩
      · by_cases h2 : t = 2
        · subst h2
          cases hl : lookupS sid2 c.streams with
          | none =>
            rw [handle_msg_data_none hp hl]
            exact ⟨[], by simp⟩
          | some st =>
            rw [handle_msg_data_some hp hl]
            exact ⟨[], by simp⟩
        · by_cases h4 : t = 4
          · subst h4
            cases hcl : unpack_close (data.drop 5) with
            | none =>
              rw [handle_msg_close_err hp hcl]
              exact ⟨[], by simp⟩
            | some r =>
              rw [handle_msg_close_ok hp hcl]
              refine ⟨[], ?_⟩
              show (close_stream c sid2).out = c.out ++ []
              rw [close_stream_out]
              simp
          · rw [handle_msg_other hp h1 h2 h4]
            exact ⟨[], by simp⟩
  | connectRun sid2 netOk =>
    show ∃ tail, (connect_run c sid2 netOk).out = c.out ++ tail
    cases hl : lookupS sid2 c.streams with
    | none =>
      rw [connect_run_absent netOk hl]
      exact ⟨[], by simp⟩
    | some st =>
      cases hct : st.connect_task with
      | none =>
        rw [connect_run_done netOk hl hct]
        exact ⟨[], by simp⟩
      | some payload =>
        rw [connect_run_pending netOk hl hct]
        cases hcp : unpack_connect payload with
        | none =>
          rw [new_stream_unpack_err c sid2 netOk hcp]
          refine ⟨[], ?_⟩
          rw [mark_connect_done_out]
          simp
        | some tp =>
          obtain ⟨t, port⟩ := tp
          cases hv : utf8Valid (payload.drop 3) with
          | false =>
            rw [new_stream_utf8_err c sid2 netOk hcp hv]
            refine ⟨[], ?_⟩
            rw [mark_connect_done_out]
            simp
          | true =>
            by_cases ht : t = 1
            · subst ht
              cases netOk with
              | false =>
                rw [new_stream_net_fail c sid2 hcp hv]
                exact out_extend_pair
                  ({ c with attempts := c.attempts ++ [(payload.drop 3, port)] })
                  sid2 0x42
              | true =>
                cases hl2 : lookupS sid2 c.streams with
                | none =>
                  rw [hl2] at hl
                  cases hl
                | some st2 =>
                  rw [new_stream_success c sid2 hcp hv hl2]
                  exact ⟨[], by simp⟩
            · rw [new_stream_bad_type c sid2 netOk hcp hv ht]
              exact out_extend_pair c sid2 0x41
  | pumpWs sid2 drainOk =>
    show ∃ tail, (stream_ws_to_tcp_step c sid2 drainOk).out = c.out ++ tail
    cases hl : lookupS sid2 c.streams with
    | none =>
      rw [pump_absent drainOk hl]
      exact ⟨[], by simp⟩
    | some st =>
      cases ht : st.ws_to_tcp_task with
      | false =>
        rw [pump_no_task drainOk hl ht]
        exact ⟨[], by simp⟩
      | true =>
        cases hq : st.queue with
        | nil =>
          rw [pump_empty drainOk hl hq]
          exact ⟨[], by simp⟩
        | cons d q =>
          cases hw : st.writer with
          | none =>
            have he : stream_ws_to_tcp_step c sid2 drainOk = c := by
              simp [stream_ws_to_tcp_step, hl, ht, hq, hw]
            rw [he]
            exact ⟨[], by simp⟩
          | some w =>
            cases drainOk with
            | false =>
              rw [pump_drain_fail hl ht hq hw]
              exact ⟨[], by simp⟩
            | true =>
              rw [pump_drain_ok hl ht hq hw]
              split
              · exact ⟨_, rfl⟩
              · exact ⟨[], by simp⟩
  | tcpRead sid2 data =>
    show ∃ tail, (stream_tcp_to_ws_step c sid2 data).out = c.out ++ tail
    cases hl : lookupS sid2 c.streams with
    | none =>
      rw [tcp_step_absent data hl]
      exact ⟨[], by simp⟩
    | some st =>
      cases ht : st.tcp_to_ws_task with
      | false =>
        rw [tcp_step_no_task data hl ht]
        exact ⟨[], by simp⟩
      | true =>
        by_cases hd : data = []
        · subst hd
          rw [tcp_step_eof hl ht]
          exact out_extend_pair c sid2 0x02
        · rw [tcp_step_data hl ht hd]
          exact ⟨_, rfl⟩

theorem memb_step_le (sid : Nat) (hsid : sid < 2 ^ 32) (c : Conn)
    (hb : KeysBound c.streams) (e : Ev) :
    memb sid (step c e).1
      ≤ memb sid c + (if connect_sid e = some sid then 1 else 0) := by
  have h1 := closeMemb_step sid hsid c hb e
  obtain ⟨tail, ht⟩ := out_extend_step c e
  have h2 : closeCount sid c.out ≤ closeCount sid (step c e).1.out := by
    rw [ht]
    exact closeCount_prefix_le sid c.out tail
  omega

theorem keys_step_src (sid : Nat) (hsid : sid < 2 ^ 32) (c : Conn)
    (hb : KeysBound c.streams) (e : Ev)
    (hmem : sid ∈ keysOf (step c e).1.streams) :
    sid ∈ keysOf c.streams ∨ connect_sid e = some sid := by
  have h1 := memb_step_le sid hsid c hb e
  have h2 : memb sid (step c e).1 = 1 := by
    unfold memb
    rw [mem_keysOf_iff.1 hmem]
    rfl
  by_cases hk : sid ∈ keysOf c.streams
  · exact Or.inl hk
  · right
    have h3 : memb sid c = 0 := by
      unfold memb
      have hfalse : (lookupS sid c.streams).isSome = false := by
        cases hx : (lookupS sid c.streams).isSome
        · rfl
        · exact absurd (mem_keysOf_iff.2 hx) hk
      rw [hfalse]
      rfl
    by_cases hc : connect_sid e = some sid
    · exact hc
    · rw [h2, h3, if_neg hc] at h1
      omega

/-! ### Socket-ownership invariant (claim C8 machinery) -/

/-- A stream whose connect task has not yet run has no TCP writer yet. -/
def PendInv (l : List (Nat × Stream)) : Prop :=
  ∀ p ∈ l, p.2.connect_task.isSome = true → p.2.writer = none

/-- All invariants of reachable connection states needed for claim C8. -/
def StInv (c : Conn) : Prop :=
  (keysOf c.streams).Nodup ∧ PendInv c.streams ∧ WriterInv c.streams c.socks

theorem bool_eq_false_of_ne_true {b : Bool} (h : ¬b = true) : b = false := by
  cases b
  · rfl
  · exact absurd rfl h

theorem PendInv_insert {l : List (Nat × Stream)} {i : Nat} {v : Stream}
    (hv : v.connect_task.isSome = true → v.writer = none)
    (h : PendInv l) : PendInv (insertS i v l) := by
  intro p hp hc
  rcases mem_of_mem_insertS hp with h1 | h1
  · rw [h1] at hc ⊢
    exact hv hc
  · exact h p h1 hc

theorem PendInv_eraseS {l : List (Nat × Stream)} (k : Nat) (h : PendInv l) :
    PendInv (eraseS k l) :=
  fun p hp hc => h p (mem_eraseS.1 hp).1 hc

theorem writeSock_closed_inv {socks : List Sock} {w : Nat} {d : Bytes} {j : Nat}
    {s2 : Sock} (hj : (writeSock socks w d).get? j = some s2)
    (hs : s2.closed = false) :
    ∃ s0, socks.get? j = some s0 ∧ s0.closed = false := by
  by_cases hjw : j = w
  · subst hjw
    cases h0 : socks.get? j with
    | none =>
      have he : writeSock socks j d = socks := by
        unfold writeSock
        rw [h0]
      rw [he, h0] at hj
      cases hj
    | some s0 =>
      rw [writeSock_get?_self d h0] at hj
      injection hj with hj2
      refine ⟨s0, rfl, ?_⟩
      rw [← hj2] at hs
      exact hs
  · rw [writeSock_get?_ne socks w j d hjw] at hj
    exact ⟨s2, hj, hs⟩

theorem WriterInv_close_stream (c : Conn) (i : Nat)
    (hn : (keysOf c.streams).Nodup) (h : WriterInv c.streams c.socks) :
    WriterInv (close_stream c i).streams (close_stream c i).socks := by
  cases hl : lookupS i c.streams with
  | none =>
    rw [close_stream_of_none hl]
    exact h
  | some st =>
    rw [close_stream_of_some hl]
    intro j s hj
    by_cases hcl : s.closed = true
    · exact Or.inl hcl
    · have hs : s.closed = false := bool_eq_false_of_ne_true hcl
      have hj2 : (close_tcp c.socks st.writer).get? j = some s := hj
      rcases close_tcp_closed_mono hj2 hs with ⟨s0, hj0, hs0⟩
      rcases h j s0 hj0 with hcl0 | ⟨p, hp, hwp⟩
      · rw [hcl0] at hs0
        cases hs0
      · by_cases hpi : p.1 = i
        · exfalso
          have hu : lookupS p.1 c.streams = some p.2 := lookupS_unique hn hp
          rw [hpi, hl] at hu
          have hst : st = p.2 := by injection hu
          have hwj : st.writer = some j := by rw [hst]; exact hwp
          rw [hwj] at hj2
          have hj3 : (closeSockAt c.socks j).get? j = some s := hj2
          rcases closeSockAt_get?_self hj0 with ⟨s2, hq2, hc2, _⟩
          rw [hj3] at hq2
          injection hq2 with hq3
          rw [← hq3] at hc2
          rw [hc2] at hs
          cases hs
        · exact Or.inr ⟨p, mem_eraseS.2 ⟨hp, hpi⟩, hwp⟩

theorem WriterInv_insert_same_writer {c : Conn} {i : Nat} {st : Stream} (v : Stream)
    (hl : lookupS i c.streams = some st) (hn : (keysOf c.streams).Nodup)
    (hw : v.writer = st.writer) (h : WriterInv c.streams c.socks)
    (socks2 : List Sock)
    (hmono : ∀ j s2, socks2.get? j = some s2 → s2.closed = false →
      ∃ s0, c.socks.get? j = some s0 ∧ s0.closed = false) :
    WriterInv (insertS i v c.streams) socks2 := by
  intro j s hj
  by_cases hcl : s.closed = true
  · exact Or.inl hcl
  · have hs : s.closed = false := bool_eq_false_of_ne_true hcl
    rcases hmono j s hj hs with ⟨s0, hj0, hs0⟩
    rcases h j s0 hj0 with hcl0 | ⟨p, hp, hwp⟩
    · rw [hcl0] at hs0
      cases hs0
    · by_cases hpi : p.1 = i
      · right
        refine ⟨(i, v), mem_insertS_self i v c.streams, ?_⟩
        have hu : lookupS p.1 c.streams = some p.2 := lookupS_unique hn hp
        rw [hpi, hl] at hu
        have hst : st = p.2 := by injection hu
        show v.writer = some j
        rw [hw, hst]
        exact hwp
      · exact Or.inr ⟨p, mem_insertS_of_ne hp hpi, hwp⟩

theorem WriterInv_insert_fresh {c : Conn} {i : Nat} (v : Stream)
    (hl : lookupS i c.streams = none) (h : WriterInv c.streams c.socks) :
    WriterInv (insertS i v c.streams) c.socks := by
  intro j s hj
  rcases h j s hj with hcl | ⟨p, hp, hwp⟩
  · exact Or.inl hcl
  · right
    refine ⟨p, ?_, hwp⟩
    rw [insertS_of_lookupS_none hl]
    exact List.mem_append.2 (Or.inl hp)

theorem WriterInv_success {c : Conn} {i : Nat} {st : Stream} (v : Stream)
    (hl : lookupS i c.streams = some st) (hn : (keysOf c.streams).Nodup)
    (hstw : st.writer = none) (hvw : v.writer = some c.socks.length)
    (h : WriterInv c.streams c.socks) :
    WriterInv (insertS i v c.streams) (c.socks ++ [dfltSock]) := by
  intro j s hj
  by_cases hjlt : j < c.socks.length
  · rw [List.get?_append hjlt] at hj
    rcases h j s hj with hcl | ⟨p, hp, hwp⟩
    · exact Or.inl hcl
    · by_cases hpi : p.1 = i
      · exfalso
        have hu : lookupS p.1 c.streams = some p.2 := lookupS_unique hn hp
        rw [hpi, hl] at hu
        have hst : st = p.2 := by injection hu
        have hwj : st.writer = some j := by rw [hst]; exact hwp
        rw [hstw] at hwj
        cases hwj
      · exact Or.inr ⟨p, mem_insertS_of_ne hp hpi, hwp⟩
  · by_cases hje : j = c.socks.length
    · subst hje
      right
      exact ⟨(i, v), mem_insertS_self i v c.streams, hvw⟩
    · exfalso
      have hlen : (c.socks ++ [dfltSock]).length ≤ j := by
        rw [List.length_append]
        simp only [List.length_singleton]
        omega
      rw [List.get?_eq_none.2 hlen] at hj
      cases hj

theorem StInv_send_close (c : Conn) (i r : Nat) (h : StInv c) :
    StInv (send_close_packet c i r) := by
  obtain ⟨h1, h2, h3⟩ := h
  refine ⟨?_, ?_, ?_⟩
  · rw [send_close_packet_streams]
    exact h1
  · rw [send_close_packet_streams]
    exact h2
  · rw [send_close_packet_streams, send_close_packet_socks]
    exact h3

theorem StInv_close_stream (c : Conn) (i : Nat) (h : StInv c) :
    StInv (close_stream c i) := by
  obtain ⟨h1, h2, h3⟩ := h
  refine ⟨Nodup_close_stream c i h1, ?_, WriterInv_close_stream c i h1 h3⟩
  cases hl : lookupS i c.streams with
  | none =>
    rw [close_stream_of_none hl]
    exact h2
  | some st =>
    rw [close_stream_of_some hl]
    exact PendInv_eraseS i h2

theorem StInv_mark (c : Conn) (i : Nat) (h : StInv c) :
    StInv (mark_connect_done c i) := by
  obtain ⟨h1, h2, h3⟩ := h
  cases hl : lookupS i c.streams with
  | none =>
    rw [mark_connect_done_of_none hl]
    exact ⟨h1, h2, h3⟩
  | some st =>
    rw [mark_connect_done_of_some hl]
    refine ⟨?_, ?_, ?_⟩
    · exact nodup_keysOf_insertS h1
    · exact PendInv_insert (fun hc => by simp at hc) h2
    · refine WriterInv_insert_same_writer _ hl h1 ?_ h3 c.socks
        (fun j s2 hj hs => ⟨s2, hj, hs⟩)
      rfl

theorem StInv_new_stream (c : Conn) (sid : Nat) (payload : Bytes) (netOk : Bool)
    {st : Stream} (hl : lookupS sid c.streams = some st)
    (hct : st.connect_task = some payload) (h : StInv c) :
    StInv (new_stream c sid payload netOk) := by
  cases hcp : unpack_connect payload with
  | none =>
    rw [new_stream_unpack_err c sid netOk hcp]
    exact StInv_mark c sid h
  | some tp =>
    obtain ⟨t, port⟩ := tp
    cases hv : utf8Valid (payload.drop 3) with
    | false =>
      rw [new_stream_utf8_err c sid netOk hcp hv]
      exact StInv_mark c sid h
    | true =>
      by_cases ht : t = 1
      · subst ht
        cases netOk with
        | false =>
          rw [new_stream_net_fail c sid hcp hv]
          exact StInv_close_stream _ sid (StInv_send_close _ sid 0x42 h)
        | true =>
          rw [new_stream_success c sid hcp hv hl]
          obtain ⟨h1, h2, h3⟩ := h
          refine ⟨?_, ?_, ?_⟩
          · exact nodup_keysOf_insertS h1
          · exact PendInv_insert (fun hc => by simp at hc) h2
          · have hstw : st.writer = none :=
              h2 (sid, st) (lookupS_mem hl) (by rw [hct]; rfl)
            exact WriterInv_success _ hl h1 hstw rfl h3
      · rw [new_stream_bad_type c sid netOk hcp hv ht]
        exact StInv_close_stream _ sid (StInv_send_close _ sid 0x41 h)

theorem StInv_connect_run (c : Conn) (sid : Nat) (netOk : Bool) (h : StInv c) :
    StInv (connect_run c sid netOk) := by
  cases hl : lookupS sid c.streams with
  | none =>
    rw [connect_run_absent netOk hl]
    exact h
  | some st =>
    cases hct : st.connect_task with
    | none =>
      rw [connect_run_done netOk hl hct]
      exact h
    | some payload =>
      rw [connect_run_pending netOk hl hct]
      exact StInv_new_stream c sid payload netOk hl hct h

theorem StInv_handle_msg (c : Conn) (data : Bytes) (h : StInv c)
    (hfresh : ∀ sid2, connect_sid (Ev.msg data) = some sid2 →
      lookupS sid2 c.streams = none) :
    StInv (handle_msg c data).1 := by
  cases hp : unpack_packet data with
  | none =>
    have hfst : (handle_msg c data).1 = c := by rw [handle_msg_err hp]
    rw [hfst]
    exact h
  | some ts =>
    obtain ⟨t, sid2⟩ := ts
    by_cases h1 : t = 1
    · subst h1
      have hfr := hfresh sid2 (connect_sid_msg_connect hp)
      have hfst : (handle_msg c data).1
          = { c with streams := insertS sid2 (fresh_stream (data.drop 5)) c.streams } := by
        rw [handle_msg_connect hp]
      rw [hfst]
      obtain ⟨ha, hb2, hc2⟩ := h
      refine ⟨?_, ?_, ?_⟩
      · exact nodup_keysOf_insertS ha
      · exact PendInv_insert (fun _ => rfl) hb2
      · exact WriterInv_insert_fresh _ hfr hc2
    · by_cases h2 : t = 2
      · subst h2
        cases hl : lookupS sid2 c.streams with
        | none =>
          have hfst : (handle_msg c data).1 = c := by rw [handle_msg_data_none hp hl]
          rw [hfst]
          exact h
        | some st =>
          have hfst : (handle_msg c data).1
              = { c with streams :=
                  insertS sid2 ({ st with queue := st.queue ++ [data.drop 5] }) c.streams } := by
            rw [handle_msg_data_some hp hl]
          rw [hfst]
          obtain ⟨ha, hb2, hc2⟩ := h
          refine ⟨?_, ?_, ?_⟩
          · exact nodup_keysOf_insertS ha
          · exact PendInv_insert (fun hc => hb2 (sid2, st) (lookupS_mem hl) hc) hb2
          · refine WriterInv_insert_same_writer _ hl ha ?_ hc2 c.socks
              (fun j s2 hj hs => ⟨s2, hj, hs⟩)
            rfl
      · by_cases h4 : t = 4
        · subst h4
          cases hcl : unpack_close (data.drop 5) with
          | none =>
            have hfst : (handle_msg c data).1 = c := by rw [handle_msg_close_err hp hcl]
            rw [hfst]
            exact h
          | some r =>
            have hfst : (handle_msg c data).1 = close_stream c sid2 := by
              rw [handle_msg_close_ok hp hcl]
            rw [hfst]
            exact StInv_close_stream c sid2 h
        · have hfst : (handle_msg c data).1 = c := by rw [handle_msg_other hp h1 h2 h4]
          rw [hfst]
          exact h

theorem StInv_pump (c : Conn) (sid : Nat) (drainOk : Bool) (h : StInv c) :
    StInv (stream_ws_to_tcp_step c sid drainOk) := by
  cases hl : lookupS sid c.streams with
  | none =>
    rw [pump_absent drainOk hl]
    exact h
  | some st =>
    cases ht : st.ws_to_tcp_task with
    | false =>
      rw [pump_no_task drainOk hl ht]
      exact h
    | true =>
      cases hq : st.queue with
      | nil =>
        rw [pump_empty drainOk hl hq]
        exact h
      | cons d q =>
        cases hw : st.writer with
        | none =>
          have he : stream_ws_to_tcp_step c sid drainOk = c := by
            simp [stream_ws_to_tcp_step, hl, ht, hq, hw]
          rw [he]
          exact h
        | some w =>
          obtain ⟨ha, hb2, hc2⟩ := h
          cases drainOk with
          | false =>
            rw [pump_drain_fail hl ht hq hw]
            refine ⟨?_, ?_, ?_⟩
            · exact nodup_keysOf_insertS ha
            · exact PendInv_insert (fun hc => hb2 (sid, st) (lookupS_mem hl) hc) hb2
            · refine WriterInv_insert_same_writer _ hl ha ?_ hc2 _
                (fun j s2 hj hs => writeSock_closed_inv hj hs)
              rfl
          | true =>
            rw [pump_drain_ok hl ht hq hw]
            split
            · refine ⟨?_, ?_, ?_⟩
              · exact nodup_keysOf_insertS ha
              · exact PendInv_insert (fun hc => hb2 (sid, st) (lookupS_mem hl) hc) hb2
              · refine WriterInv_insert_same_writer _ hl ha ?_ hc2 _
                  (fun j s2 hj hs => writeSock_closed_inv hj hs)
                rfl
            · refine ⟨?_, ?_, ?_⟩
              · exact nodup_keysOf_insertS ha
              · exact PendInv_insert (fun hc => hb2 (sid, st) (lookupS_mem hl) hc) hb2
              · refine WriterInv_insert_same_writer _ hl ha ?_ hc2 _
                  (fun j s2 hj hs => writeSock_closed_inv hj hs)
                rfl

theorem StInv_tcp_step (c : Conn) (sid : Nat) (data : Bytes) (h : StInv c) :
    StInv (stream_tcp_to_ws_step c sid data) := by
  cases hl : lookupS sid c.streams with
  | none =>
    rw [tcp_step_absent data hl]
    exact h
  | some st =>
    cases ht : st.tcp_to_ws_task with
    | false =>
      rw [tcp_step_no_task data hl ht]
      exact h
    | true =>
      by_cases hd : data = []
      · subst hd
        rw [tcp_step_eof hl ht]
        exact StInv_close_stream _ sid (StInv_send_close _ sid 0x02 h)
      · rw [tcp_step_data hl ht hd]
        exact h

theorem StInv_foldl_close (ks : List Nat) (c : Conn) (h : StInv c) :
    StInv (ks.foldl (fun acc k => close_stream acc k) c) := by
  induction ks generalizing c with
  | nil => exact h
  | cons k ks ih =>
    simp only [List.foldl_cons]
    exact ih _ (StInv_close_stream c k h)

theorem StInv_teardown (c : Conn) (h : StInv c) : StInv (teardown c) :=
  StInv_foldl_close _ c h

theorem StInv_step (c : Conn) (e : Ev) (h : StInv c)
    (hfresh : ∀ sid2, connect_sid e = some sid2 → lookupS sid2 c.streams = none) :
    StInv (step c e).1 := by
  cases e with
  | msg data => exact StInv_handle_msg c data h hfresh
  | wsClosed => exact StInv_teardown c h
  | connectRun sid netOk => exact StInv_connect_run c sid netOk h
  | pumpWs sid drainOk => exact StInv_pump c sid drainOk h
  | tcpRead sid data => exact StInv_tcp_step c sid data h

theorem hcount_transfer (c : Conn) (e : Ev) (rest : List Ev)
    (hkb : KeysBound c.streams)
    (hcount : ∀ sid, sid ∈ keysOf c.streams → countConnect sid (e :: rest) = 0)
    (hdup : ∀ sid, countConnect sid (e :: rest) ≤ 1) :
    ∀ sid, sid ∈ keysOf (step c e).1.streams → countConnect sid rest = 0 := by
  intro sid hk
  have hkb1 := KeysBound_step c e hkb
  obtain ⟨st, hst⟩ : ∃ st, lookupS sid (step c e).1.streams = some st := by
    have hmem := mem_keysOf_iff.1 hk
    cases hx : lookupS sid (step c e).1.streams with
    | none =>
      rw [hx] at hmem
      cases hmem
    | some st => exact ⟨st, rfl⟩
  have hslt := lookupS_key_lt hkb1 hst
  rcases keys_step_src sid hslt c hkb e hk with hsrc | hsrc
  · have h0 := hcount sid hsrc
    rw [countConnect_cons] at h0
    omega
  · have hd := hdup sid
    rw [countConnect_cons, if_pos hsrc] at hd
    omega

theorem hdup_transfer (e : Ev) (rest : List Ev)
    (hdup : ∀ sid, countConnect sid (e :: rest) ≤ 1) :
    ∀ sid, countConnect sid rest ≤ 1 := by
  intro sid
  have hd := hdup sid
  rw [countConnect_cons] at hd
  have h1 := Nat.le_add_left (countConnect sid rest)
    (if connect_sid e = some sid then 1 else 0)
  omega

theorem StInv_run (evs : List Ev) (c : Conn) (h : StInv c)
    (hkb : KeysBound c.streams)
    (hcount : ∀ sid, sid ∈ keysOf c.streams → countConnect sid evs = 0)
    (hdup : ∀ sid, countConnect sid evs ≤ 1) :
    StInv (run c evs).1 := by
  induction evs generalizing c with
  | nil => exact h
  | cons e rest ih =>
    have hfresh : ∀ sid2, connect_sid e = some sid2 → lookupS sid2 c.streams = none := by
      intro sid2 hc
      cases hx : lookupS sid2 c.streams with
      | none => rfl
      | some st =>
        exfalso
        have hkmem : sid2 ∈ keysOf c.streams := mem_keysOf_iff.2 (by rw [hx]; rfl)
        have h0 := hcount sid2 hkmem
        rw [countConnect_cons, if_pos hc] at h0
        omega
    have hct := hcount_transfer c e rest hkb hcount hdup
    have hdt := hdup_transfer e rest hdup
    cases e with
    | wsClosed =>
      show StInv (teardown c)
      exact StInv_teardown c h
    | msg data =>
      cases hstep : handle_msg c data with
      | mk c1 o =>
        have h1 : StInv c1 := by
          have h2 := StInv_step c (Ev.msg data) h hfresh
          rw [show step c (Ev.msg data) = (c1, o) from hstep] at h2
          exact h2
        have hkb1 : KeysBound c1.streams := by
          have h2 := KeysBound_step c (Ev.msg data) hkb
          rw [show step c (Ev.msg data) = (c1, o) from hstep] at h2
          exact h2
        have hct1 : ∀ sid, sid ∈ keysOf c1.streams → countConnect sid rest = 0 := by
          intro sid hk2
          apply hct sid
          rw [show step c (Ev.msg data) = (c1, o) from hstep]
          exact hk2
        cases o with
        | none =>
          have hrun : run c (Ev.msg data :: rest) = run c1 rest := by
            show (match step c (Ev.msg data) with
              | (c2, none) => run c2 rest
              | (c2, some err) => (c2, some err)) = run c1 rest
            rw [show step c (Ev.msg data) = (c1, none) from hstep]
          rw [hrun]
          exact ih c1 h1 hkb1 hct1 hdt
        | some err =>
          have hrun : run c (Ev.msg data :: rest) = (c1, some err) := by
            show (match step c (Ev.msg data) with
              | (c2, none) => run c2 rest
              | (c2, some err) => (c2, some err)) = (c1, some err)
            rw [show step c (Ev.msg data) = (c1, some err) from hstep]
          rw [hrun]
          exact h1
    | connectRun sid2 netOk =>
      show StInv (run (connect_run c sid2 netOk) rest).1
      exact ih _ (StInv_connect_run c sid2 netOk h)
        (KeysBound_connect_run c sid2 netOk hkb) hct hdt
    | pumpWs sid2 drainOk =>
      show StInv (run (stream_ws_to_tcp_step c sid2 drainOk) rest).1
      exact ih _ (StInv_pump c sid2 drainOk h)
        (KeysBound_pump c sid2 drainOk hkb) hct hdt
    | tcpRead sid2 data =>
      show StInv (run (stream_tcp_to_ws_step c sid2 data) rest).1
      exact ih _ (StInv_tcp_step c sid2 data h)
        (KeysBound_tcp_step c sid2 data hkb) hct hdt

/-! ### Run-level facts about termination and errors -/

theorem run_wsClosed_streams_nil (evs : List Ev) (c : Conn)
    (herr : (run c evs).2 = none) (hws : Ev.wsClosed ∈ evs) :
    (run c evs).1.streams = [] := by
  induction evs generalizing c with
  | nil => cases hws
  | cons e rest ih =>
    by_cases hwse : e = Ev.wsClosed
    · subst hwse
      show (teardown c).streams = []
      exact teardown_streams c
    · have hws2 : Ev.wsClosed ∈ rest := by
        rcases List.mem_cons.1 hws with h1 | h1
        · exact absurd h1.symm hwse
        · exact h1
      cases e with
      | wsClosed => exact absurd rfl hwse
      | msg data =>
        cases hstep : handle_msg c data with
        | mk c1 o =>
          cases o with
          | none =>
            have hrun : run c (Ev.msg data :: rest) = run c1 rest := by
              show (match step c (Ev.msg data) with
                | (c2, none) => run c2 rest
                | (c2, some err) => (c2, some err)) = run c1 rest
              rw [show step c (Ev.msg data) = (c1, none) from hstep]
            rw [hrun] at herr ⊢
            exact ih c1 herr hws2
          | some err =>
            exfalso
            have hrun : run c (Ev.msg data :: rest) = (c1, some err) := by
              show (match step c (Ev.msg data) with
                | (c2, none) => run c2 rest
                | (c2, some err) => (c2, some err)) = (c1, some err)
              rw [show step c (Ev.msg data) = (c1, some err) from hstep]
            rw [hrun] at herr
            cases herr
      | connectRun sid2 netOk =>
        show (run (connect_run c sid2 netOk) rest).1.streams = []
        exact ih _ herr hws2
      | pumpWs sid2 drainOk =>
        show (run (stream_ws_to_tcp_step c sid2 drainOk) rest).1.streams = []
        exact ih _ herr hws2
      | tcpRead sid2 data =>
        show (run (stream_tcp_to_ws_step c sid2 data) rest).1.streams = []
        exact ih _ herr hws2

theorem run_msg_err_head (c : Conn) (data : Bytes) (rest : List Ev)
    (h : unpack_packet data = none) :
    run c (Ev.msg data :: rest) = (c, some data) := by
  show (match step c (Ev.msg data) with
    | (c2, none) => run c2 rest
    | (c2, some err) => (c2, some err)) = (c, some data)
  rw [show step c (Ev.msg data) = (c, some data) from handle_msg_err h]

theorem run_msg_close_err_head (c : Conn) (data : Bytes) (rest : List Ev)
    {sid : Nat} (h : unpack_packet data = some (4, sid))
    (hc : unpack_close (data.drop 5) = none) :
    run c (Ev.msg data :: rest) = (c, some data) := by
  show (match step c (Ev.msg data) with
    | (c2, none) => run c2 rest
    | (c2, some err) => (c2, some err)) = (c, some data)
  rw [show step c (Ev.msg data) = (c, some data) from handle_msg_close_err h hc]

/-! ### Byte-level helpers for whole packets -/

theorem unpack_packet_none_of_short {data : Bytes} (h : data.length < 5) :
    unpack_packet data = none := by
  cases data with
  | nil => rfl
  | cons x1 t1 =>
    cases t1 with
    | nil => rfl
    | cons x2 t2 =>
      cases t2 with
      | nil => rfl
      | cons x3 t3 =>
        cases t3 with
        | nil => rfl
        | cons x4 t4 =>
          cases t4 with
          | nil => rfl
          | cons x5 t5 =>
            exfalso
            simp only [List.length_cons] at h
            omega

theorem unpack_close_none_of_ne_one {payload : Bytes} (h : payload.length ≠ 1) :
    unpack_close payload = none := by
  cases payload with
  | nil => rfl
  | cons r t =>
    cases t with
    | nil =>
      exfalso
      exact h rfl
    | cons r2 t2 => rfl

theorem unpack_connect_none_of_short {payload : Bytes} (h : payload.length < 3) :
    unpack_connect payload = none := by
  cases payload with
  | nil => rfl
  | cons x1 t1 =>
    cases t1 with
    | nil => rfl
    | cons x2 t2 =>
      cases t2 with
      | nil => rfl
      | cons x3 t3 =>
        exfalso
        simp only [List.length_cons] at h
        omega

theorem unpack_packet_pack {t sid : Nat} (ht : t < 256) (hs : sid < 2 ^ 32)
    (rest : Bytes) :
    unpack_packet (packet_pack t sid ++ rest) = some (t, sid) := by
  show unpack_packet (t % 256 :: sid % 256 :: sid / 256 % 256 :: sid / 65536 % 256
    :: sid / 16777216 % 256 :: rest) = some (t, sid)
  simp only [unpack_packet]
  rw [if_pos]
  · have h1 : t % 256 = t := Nat.mod_eq_of_lt ht
    have h2 : sid % 256 + 256 * (sid / 256 % 256) + 65536 * (sid / 65536 % 256)
        + 16777216 * (sid / 16777216 % 256) = sid := by omega
    rw [h1, h2]
  · simp only [Bool.and_eq_true, decide_eq_true_eq]
    refine ⟨⟨⟨⟨?_, ?_⟩, ?_⟩, ?_⟩, ?_⟩ <;> exact Nat.mod_lt _ (by norm_num)

theorem drop5_packet {t sid : Nat} (payload : Bytes) :
    (packet_pack t sid ++ payload).drop 5 = payload := rfl

/-! ### FIFO draining of the inbound queue (claim C10 machinery) -/

theorem pumpIter_writes (q : List Bytes) :
    ∀ (c : Conn) (sid : Nat) (st : Stream) (w : Nat) (s : Sock),
    lookupS sid c.streams = some st → st.ws_to_tcp_task = true →
    st.writer = some w → st.queue = q → c.socks.get? w = some s →
    ∃ st2, lookupS sid (pumpIter sid q.length c).streams = some st2 ∧
      st2.queue = [] ∧ st2.writer = some w ∧
      (pumpIter sid q.length c).socks.get? w
        = some { s with written := s.written ++ q } := by
  induction q with
  | nil =>
    intro c sid st w s hl ht hw hq hs
    refine ⟨st, hl, hq, hw, ?_⟩
    show c.socks.get? w = some { s with written := s.written ++ [] }
    rw [List.append_nil]
    exact hs
  | cons d q ih =>
    intro c sid st w s hl ht hw hq hs
    have hstep := pump_drain_ok hl ht hq hw
    have hpe : pumpIter sid (d :: q).length c
        = pumpIter sid q.length (stream_ws_to_tcp_step c sid true) := rfl
    rw [hpe]
    have hl1 : lookupS sid (stream_ws_to_tcp_step c sid true).streams
        = some ({ st with queue := q, packets_sent := st.packets_sent + 1 }) := by
      rw [hstep]
      split
      · show lookupS sid (insertS sid _ c.streams) = _
        exact lookupS_insertS_self _ _ _
      · show lookupS sid (insertS sid _ c.streams) = _
        exact lookupS_insertS_self _ _ _
    have hs1 : (stream_ws_to_tcp_step c sid true).socks.get? w
        = some ({ s with written := s.written ++ [d] }) := by
      rw [hstep]
      split
      · show (writeSock c.socks w d).get? w = _
        exact writeSock_get?_self d hs
      · show (writeSock c.socks w d).get? w = _
        exact writeSock_get?_self d hs
    obtain ⟨st2, ha, hb2, hc2, hd2⟩ := ih (stream_ws_to_tcp_step c sid true) sid
      ({ st with queue := q, packets_sent := st.packets_sent + 1 }) w
      ({ s with written := s.written ++ [d] }) hl1 ht hw rfl hs1
    refine ⟨st2, ha, hb2, hc2, ?_⟩
    rw [hd2]
    have he : (s.written ++ [d]) ++ q = s.written ++ d :: q := by
      rw [List.append_assoc]
      rfl
    show some ({ s with written := (s.written ++ [d]) ++ q })
      = some ({ s with written := s.written ++ d :: q })
    rw [he]

/-! ### Concrete states used by the claim theorems -/

/-- An open stream record (connect finished, both pumps running) on socket 0. -/
def openStream (q : List Bytes) : Stream :=
  { reader := some 0, writer := some 0, queue := q, connect_task := none,
    ws_to_tcp_task := true, tcp_to_ws_task := true, packets_sent := 0 }

/-- A connection with the single open stream 7 whose queue holds `q`. -/
def connWith7 (q : List Bytes) : Conn :=
  { streams := [(7, openStream q)], out := [], socks := [dfltSock], attempts := [] }

/-- A connection in which stream 7 is still Connecting (connect task pending). -/
def cpend7 : Conn :=
  { streams := [(7, fresh_stream [1, 80, 0])], out := [setup_packet], socks := [],
    attempts := [] }

/-- A CONNECT-task run that dies in `struct.unpack` or `decode` (main.py 66-67)
leaves the stream record in the table with its task finished. -/
theorem connect_task_dies (c : Conn) (sid : Nat) (payload : Bytes) (ok : Bool)
    (hs : sid < 2 ^ 32)
    (hdead : unpack_connect payload = none ∨ utf8Valid (payload.drop 3) = false) :
    (run c [Ev.msg (packet_pack 0x01 sid ++ payload), Ev.connectRun sid ok]).2 = none ∧
    lookupS sid (run c [Ev.msg (packet_pack 0x01 sid ++ payload),
        Ev.connectRun sid ok]).1.streams
      = some ({ fresh_stream payload with connect_task := none }) := by
  have hm : unpack_packet (packet_pack 0x01 sid ++ payload) = some (1, sid) :=
    unpack_packet_pack (by norm_num) hs payload
  have h1 : handle_msg c (packet_pack 0x01 sid ++ payload)
      = ({ c with streams := insertS sid (fresh_stream payload) c.streams }, none) := by
    rw [handle_msg_connect hm, drop5_packet]
  have hl1 : lookupS sid
      ({ c with streams := insertS sid (fresh_stream payload) c.streams }).streams
      = some (fresh_stream payload) := lookupS_insertS_self sid _ c.streams
  have h2 : connect_run
      ({ c with streams := insertS sid (fresh_stream payload) c.streams }) sid ok
      = mark_connect_done
          ({ c with streams := insertS sid (fresh_stream payload) c.streams }) sid := by
    rw [connect_run_pending ok hl1 rfl]
    rcases hdead with hd | hd
    · exact new_stream_unpack_err _ sid ok hd
    · cases hcp : unpack_connect payload with
      | none => exact new_stream_unpack_err _ sid ok hcp
      | some tp =>
        obtain ⟨t, port⟩ := tp
        exact new_stream_utf8_err _ sid ok hcp hd
  have hrun : run c [Ev.msg (packet_pack 0x01 sid ++ payload), Ev.connectRun sid ok]
      = (connect_run
          ({ c with streams := insertS sid (fresh_stream payload) c.streams }) sid ok,
         none) := by
    show (match step c (Ev.msg (packet_pack 0x01 sid ++ payload)) with
      | (c2, none) => run c2 [Ev.connectRun sid ok]
      | (c2, some err) => (c2, some err)) = _
    rw [show step c (Ev.msg (packet_pack 0x01 sid ++ payload))
      = ({ c with streams := insertS sid (fresh_stream payload) c.streams }, none)
      from h1]
    rfl
  rw [hrun, h2]
  refine ⟨rfl, ?_⟩
  rw [mark_connect_done_of_some hl1]
  show lookupS sid (insertS sid _ _) = _
  exact lookupS_insertS_self _ _ _

set_option maxRecDepth 40000 in
/-- Claim C1 (code_bug): the WS→TCP pump does not emit a CONTINUE after every
32nd drained payload.  Python evaluates the guard
`packets_sent % queue_size / 4 == 0` with true division, so it fires only when
the counter is a multiple of 128: a stream that drains 32 payloads emits no
CONTINUE at all, while one that drains 128 emits exactly one, carrying
buffer_remaining = 128 − qsize = 128. -/
theorem C1_continue_cadence :
    continueTrigger 32 = false ∧ continueTrigger 128 = true ∧
    (pumpIter 7 32 (connWith7 (List.replicate 128 [0]))).out = [] ∧
    (pumpIter 7 128 (connWith7 (List.replicate 128 [0]))).out
      = [packet_pack 0x03 7 ++ packU8 128] := by
  refine ⟨by decide, by decide, by decide, by decide⟩

/-- Claim C2 counterexample: a 3-byte inbound message makes `struct.unpack`
raise out of the inbound loop — the error escapes `handle_ws` (second
component `some`), and a well-formed CONNECT sent after it is never served. -/
theorem C2_counterexample :
    run conn0 [Ev.msg [1, 2, 3], Ev.msg (packet_pack 0x01 9 ++ [1, 80, 0])]
      = (conn0, some [1, 2, 3]) ∧
    lookupS 9 (run conn0 [Ev.msg [1, 2, 3],
      Ev.msg (packet_pack 0x01 9 ++ [1, 80, 0])]).1.streams = none := by
  refine ⟨by decide, by decide⟩

/-- Claim C2 as amended: malformed frames are not dropped.  A message shorter
than 5 bytes, or a CLOSE whose payload is not exactly 1 byte, raises an unpack
error that propagates out of the inbound loop, aborting it with the state as it
was and no further frame served; a CONNECT whose payload is shorter than 3
bytes or whose hostname is not valid UTF-8 only kills that stream's connect
task, leaving the inserted record in the table. -/
theorem C2_amended :
    (∀ (c : Conn) (data : Bytes) (rest : List Ev), data.length < 5 →
      run c (Ev.msg data :: rest) = (c, some data)) ∧
    (∀ (c : Conn) (sid : Nat) (payload : Bytes) (rest : List Ev), sid < 2 ^ 32 →
      payload.length ≠ 1 →
      run c (Ev.msg (packet_pack 0x04 sid ++ payload) :: rest)
        = (c, some (packet_pack 0x04 sid ++ payload))) ∧
    (∀ (c : Conn) (sid : Nat) (payload : Bytes) (ok : Bool), sid < 2 ^ 32 →
      payload.length < 3 →
      (run c [Ev.msg (packet_pack 0x01 sid ++ payload),
          Ev.connectRun sid ok]).2 = none ∧
      lookupS sid (run c [Ev.msg (packet_pack 0x01 sid ++ payload),
          Ev.connectRun sid ok]).1.streams
        = some ({ fresh_stream payload with connect_task := none })) ∧
    (∀ (c : Conn) (sid t p0 p1 : Nat) (host : Bytes) (ok : Bool), sid < 2 ^ 32 →
      utf8Valid host = false →
      (run c [Ev.msg (packet_pack 0x01 sid ++ (t :: p0 :: p1 :: host)),
          Ev.connectRun sid ok]).2 = none ∧
      lookupS sid (run c [Ev.msg (packet_pack 0x01 sid ++ (t :: p0 :: p1 :: host)),
          Ev.connectRun sid ok]).1.streams
        = some ({ fresh_stream (t :: p0 :: p1 :: host) with connect_task := none })) := by
  refine ⟨?_, ?_, ?_, ?_⟩
  · intro c data rest h
    exact run_msg_err_head c data rest (unpack_packet_none_of_short h)
  · intro c sid payload rest hs h
    exact run_msg_close_err_head c _ rest (unpack_packet_pack (by norm_num) hs payload)
      (unpack_close_none_of_ne_one h)
  · intro c sid payload ok hs h
    exact connect_task_dies c sid payload ok hs
      (Or.inl (unpack_connect_none_of_short h))
  · intro c sid t p0 p1 host ok hs hv
    exact connect_task_dies c sid (t :: p0 :: p1 :: host) ok hs (Or.inr hv)

/-- Witness for C2_amended at concrete inputs. -/
theorem C2_amended_witness :
    run conn0 [Ev.msg [1, 2, 3]] = (conn0, some [1, 2, 3]) ∧
    run conn0 [Ev.msg (packet_pack 0x04 7 ++ [1, 2])]
      = (conn0, some (packet_pack 0x04 7 ++ [1, 2])) ∧
    lookupS 7 (run conn0 [Ev.msg (packet_pack 0x01 7 ++ [1]),
        Ev.connectRun 7 true]).1.streams
      = some ({ fresh_stream [1] with connect_task := none }) ∧
    lookupS 7 (run conn0 [Ev.msg (packet_pack 0x01 7 ++ [1, 80, 0, 0xFF]),
        Ev.connectRun 7 true]).1.streams
      = some ({ fresh_stream [1, 80, 0, 0xFF] with connect_task := none }) :=
  ⟨C2_amended.1 conn0 [1, 2, 3] [] (by norm_num),
   C2_amended.2.1 conn0 7 [1, 2] [] (by norm_num) (by norm_num),
   (C2_amended.2.2.1 conn0 7 [1] true (by norm_num) (by norm_num)).2,
   (C2_amended.2.2.2 conn0 7 1 80 0 [0xFF] true (by norm_num) (by decide)).2⟩

/-- Claim C3 counterexample: a second CONNECT for an id already in the table is
not ignored — it replaces the record, emptying the queued DATA payload. -/
theorem C3_counterexample :
    lookupS 7 (run conn0 [Ev.msg (packet_pack 0x01 7 ++ [1, 80, 0]),
        Ev.msg (packet_pack 0x02 7 ++ [42])]).1.streams
      = some ({ fresh_stream [1, 80, 0] with queue := [[42]] }) ∧
    lookupS 7 (run conn0 [Ev.msg (packet_pack 0x01 7 ++ [1, 80, 0]),
        Ev.msg (packet_pack 0x02 7 ++ [42]),
        Ev.msg (packet_pack 0x01 7 ++ [1, 80, 0])]).1.streams
      = some (fresh_stream [1, 80, 0]) ∧
    ({ fresh_stream [1, 80, 0] with queue := [[42]] } : Stream)
      ≠ fresh_stream [1, 80, 0] := by
  refine ⟨by decide, by decide, by decide⟩

/-- Claim C3 as amended: an inbound CONNECT whose stream id already exists
unconditionally replaces the record with a fresh one (empty queue, zero
counter, new pending connect task); the table still never holds two records
for one id over any run. -/
theorem C3_amended :
    (∀ (c : Conn) (data : Bytes) (sid : Nat), unpack_packet data = some (1, sid) →
      handle_msg c data
        = ({ c with streams := insertS sid (fresh_stream (data.drop 5)) c.streams },
           none)) ∧
    (∀ evs : List Ev, (keysOf (run conn0 evs).1.streams).Nodup) :=
  ⟨fun c data sid h => handle_msg_connect h,
   fun evs => Nodup_run evs conn0 (by simp [conn0, keysOf])⟩

/-- Witness for C3_amended at concrete inputs. -/
theorem C3_amended_witness :
    handle_msg conn0 (packet_pack 0x01 7 ++ [1, 80, 0])
      = ({ conn0 with
            streams := insertS 7 (fresh_stream [1, 80, 0]) conn0.streams }, none) ∧
    (keysOf (run conn0 [Ev.msg (packet_pack 0x01 7 ++ [1, 80, 0])]).1.streams).Nodup :=
  ⟨C3_amended.1 conn0 (packet_pack 0x01 7 ++ [1, 80, 0]) 7 (by decide),
   C3_amended.2 [Ev.msg (packet_pack 0x01 7 ++ [1, 80, 0])]⟩

/-- Claim C4 counterexample: when the drain fails, the pump sends no CLOSE
frame (no CLOSE 0x03 — or any CLOSE — appears) and the stream stays in the
table. -/
theorem C4_counterexample :
    closeCount 7 (stream_ws_to_tcp_step (connWith7 [[9]]) 7 false).out = 0 ∧
    (lookupS 7 (stream_ws_to_tcp_step (connWith7 [[9]]) 7 false).streams).isSome
      = true := by
  refine ⟨by decide, by decide⟩

/-- Claim C4 as amended: on a TCP write (drain) failure the WS→TCP pump
consumes the payload and exits — it sends nothing on the WebSocket, does not
remove the stream from the table, and merely marks its own task as finished. -/
theorem C4_amended :
    ∀ (c : Conn) (sid : Nat) (st : Stream) (d : Bytes) (q : List Bytes) (w : Nat),
    lookupS sid c.streams = some st → st.ws_to_tcp_task = true →
    st.queue = d :: q → st.writer = some w →
    stream_ws_to_tcp_step c sid false
      = { c with socks := writeSock c.socks w d,
                 streams :=
                   insertS sid ({ st with queue := q, ws_to_tcp_task := false })
                     c.streams } ∧
    (stream_ws_to_tcp_step c sid false).out = c.out ∧
    lookupS sid (stream_ws_to_tcp_step c sid false).streams
      = some ({ st with queue := q, ws_to_tcp_task := false }) := by
  intro c sid st d q w hl ht hq hw
  have h1 := pump_drain_fail hl ht hq hw
  refine ⟨h1, ?_, ?_⟩
  · rw [h1]
  · rw [h1]
    show lookupS sid (insertS sid _ c.streams) = _
    exact lookupS_insertS_self _ _ _

/-- Witness for C4_amended at a concrete open stream. -/
theorem C4_amended_witness :
    (stream_ws_to_tcp_step (connWith7 [[9]]) 7 false).out = (connWith7 [[9]]).out ∧
    lookupS 7 (stream_ws_to_tcp_step (connWith7 [[9]]) 7 false).streams
      = some ({ openStream [[9]] with queue := [], ws_to_tcp_task := false }) :=
  ⟨(C4_amended (connWith7 [[9]]) 7 (openStream [[9]]) [9] [] 0 rfl rfl rfl rfl).2.1,
   (C4_amended (connWith7 [[9]]) 7 (openStream [[9]]) [9] [] 0 rfl rfl rfl rfl).2.2⟩

/-- Claim C5 counterexample: reusing a stream id across two CONNECTs with an
unsupported type makes the server emit two CLOSE frames bearing that id in one
connection, refuting "in no execution more than one". -/
theorem C5_counterexample :
    closeCount 7 (run conn0 [Ev.msg (packet_pack 0x01 7 ++ [2, 53, 0]),
      Ev.connectRun 7 true, Ev.msg (packet_pack 0x01 7 ++ [2, 53, 0]),
      Ev.connectRun 7 true]).1.out = 2 := by
  decide

/-- Claim C5 as amended: if a stream id is carried by at most one CONNECT
frame over the connection, the server emits at most one CLOSE frame bearing
that id; a stream closed by a client CLOSE or by teardown may receive none,
and an id reused by further CONNECTs may receive several. -/
theorem C5_amended :
    ∀ (evs : List Ev) (sid : Nat), sid < 2 ^ 32 → countConnect sid evs ≤ 1 →
    closeCount sid (run conn0 evs).1.out ≤ 1 := by
  intro evs sid hs hcc
  have h := closeMemb_run sid hs evs conn0 (by intro p hp; simp [conn0] at hp)
  have h0 : closeCount sid conn0.out = 0 := by
    show closeCount sid ([] ++ [packet_pack 0x03 0 ++ packU8 queue_size]) = 0
    rw [closeCount_append, isCloseFor_first_byte 0 (by norm_num)]
    rfl
  have hm0 : memb sid conn0 = 0 := rfl
  omega

/-- Witness for C5_amended: a trace with one CONNECT for id 7. -/
theorem C5_amended_witness :
    closeCount 7 (run conn0 [Ev.msg (packet_pack 0x01 7 ++ [2, 53, 0]),
      Ev.connectRun 7 true]).1.out ≤ 1 :=
  C5_amended [Ev.msg (packet_pack 0x01 7 ++ [2, 53, 0]), Ev.connectRun 7 true] 7
    (by norm_num) (by decide)

/-- Claim C6 counterexample: a CONNECT carrying stream id 0 inserts a record
keyed 0 into the table — id 0 receives no special treatment. -/
theorem C6_counterexample :
    lookupS 0 (run conn0 [Ev.msg (packet_pack 0x01 0 ++ [1, 80, 0])]).1.streams
      = some (fresh_stream [1, 80, 0]) := by
  decide

/-- Claim C6 as amended: DATA and CLOSE frames with stream id 0 are dropped
with no effect only while no record keyed 0 is in the table; a CONNECT with
id 0 is handled like any other id and inserts a record keyed 0. -/
theorem C6_amended :
    (∀ (c : Conn) (p : Bytes), lookupS 0 c.streams = none →
      handle_msg c (packet_pack 0x02 0 ++ p) = (c, none)) ∧
    (∀ (c : Conn) (r : Nat), lookupS 0 c.streams = none → r < 256 →
      handle_msg c (packet_pack 0x04 0 ++ [r]) = (c, none)) ∧
    (∀ (c : Conn) (payload : Bytes),
      handle_msg c (packet_pack 0x01 0 ++ payload)
        = ({ c with streams := insertS 0 (fresh_stream payload) c.streams }, none)) := by
  refine ⟨?_, ?_, ?_⟩
  · intro c p hl
    exact handle_msg_data_none (unpack_packet_pack (by norm_num) (by norm_num) p) hl
  · intro c r hl hr
    have hc : unpack_close ((packet_pack 0x04 0 ++ [r]).drop 5) = some r := by
      show unpack_close [r] = some r
      simp [unpack_close, hr]
    rw [handle_msg_close_ok (unpack_packet_pack (by norm_num) (by norm_num) [r]) hc,
      close_stream_of_none hl]
  · intro c payload
    rw [handle_msg_connect (unpack_packet_pack (by norm_num) (by norm_num) payload),
      drop5_packet]

/-- Witness for C6_amended at the initial connection state. -/
theorem C6_amended_witness :
    handle_msg conn0 (packet_pack 0x02 0 ++ [5]) = (conn0, none) ∧
    handle_msg conn0 (packet_pack 0x04 0 ++ [1]) = (conn0, none) ∧
    handle_msg conn0 (packet_pack 0x01 0 ++ [1, 80, 0])
      = ({ conn0 with streams := insertS 0 (fresh_stream [1, 80, 0]) conn0.streams },
         none) :=
  ⟨C6_amended.1 conn0 [5] rfl, C6_amended.2.1 conn0 1 rfl (by norm_num),
   C6_amended.2.2 conn0 [1, 80, 0]⟩

/-- The state right after the dispatcher handled a CONNECT for `sid`. -/
abbrev afterConnect (c : Conn) (sid : Nat) (payload : Bytes) : Conn :=
  { c with streams := insertS sid (fresh_stream payload) c.streams }

/-- Claim C7 (confirmed): a CONNECT whose stream type is not 1 makes the
server send CLOSE(stream_id, 0x41), remove the id from the table, and attempt
no hostname resolution or TCP connection (the attempt log and the socket list
are untouched); the inbound loop keeps running. -/
theorem C7_invalid_stream_type :
    ∀ (c : Conn) (sid t p0 p1 : Nat) (host : Bytes) (ok : Bool),
    sid < 2 ^ 32 → t < 256 → p0 < 256 → p1 < 256 → t ≠ 1 → utf8Valid host = true →
    (run c [Ev.msg (packet_pack 0x01 sid ++ (t :: p0 :: p1 :: host)),
        Ev.connectRun sid ok]).1.out
      = c.out ++ [packet_pack 0x04 sid ++ packU8 0x41] ∧
    lookupS sid (run c [Ev.msg (packet_pack 0x01 sid ++ (t :: p0 :: p1 :: host)),
        Ev.connectRun sid ok]).1.streams = none ∧
    (run c [Ev.msg (packet_pack 0x01 sid ++ (t :: p0 :: p1 :: host)),
        Ev.connectRun sid ok]).1.attempts = c.attempts ∧
    (run c [Ev.msg (packet_pack 0x01 sid ++ (t :: p0 :: p1 :: host)),
        Ev.connectRun sid ok]).1.socks = c.socks ∧
    (run c [Ev.msg (packet_pack 0x01 sid ++ (t :: p0 :: p1 :: host)),
        Ev.connectRun sid ok]).2 = none := by
  intro c sid t p0 p1 host ok hs ht hp0 hp1 htne hv
  have hm : unpack_packet (packet_pack 0x01 sid ++ (t :: p0 :: p1 :: host))
      = some (1, sid) := unpack_packet_pack (by norm_num) hs _
  have h1 : handle_msg c (packet_pack 0x01 sid ++ (t :: p0 :: p1 :: host))
      = (afterConnect c sid (t :: p0 :: p1 :: host), none) := by
    rw [handle_msg_connect hm, drop5_packet]
  have hl1 : lookupS sid (afterConnect c sid (t :: p0 :: p1 :: host)).streams
      = some (fresh_stream (t :: p0 :: p1 :: host)) :=
    lookupS_insertS_self sid _ c.streams
  have hcp : unpack_connect (t :: p0 :: p1 :: host) = some (t, p0 + 256 * p1) := by
    simp only [unpack_connect]
    rw [if_pos]
    simp only [Bool.and_eq_true, decide_eq_true_eq]
    exact ⟨⟨ht, hp0⟩, hp1⟩
  have h2 : connect_run (afterConnect c sid (t :: p0 :: p1 :: host)) sid ok
      = close_stream
          (send_close_packet (afterConnect c sid (t :: p0 :: p1 :: host)) sid 0x41)
          sid := by
    rw [connect_run_pending ok hl1 rfl]
    exact new_stream_bad_type _ sid ok hcp hv htne
  have hrun : run c [Ev.msg (packet_pack 0x01 sid ++ (t :: p0 :: p1 :: host)),
      Ev.connectRun sid ok]
      = (connect_run (afterConnect c sid (t :: p0 :: p1 :: host)) sid ok, none) := by
    show (match step c (Ev.msg (packet_pack 0x01 sid ++ (t :: p0 :: p1 :: host))) with
      | (c2, none) => run c2 [Ev.connectRun sid ok]
      | (c2, some err) => (c2, some err)) = _
    rw [show step c (Ev.msg (packet_pack 0x01 sid ++ (t :: p0 :: p1 :: host)))
      = (afterConnect c sid (t :: p0 :: p1 :: host), none) from h1]
    rfl
  rw [hrun, h2]
  have hsome : (lookupS sid
      (afterConnect c sid (t :: p0 :: p1 :: host)).streams).isSome = true := by
    rw [hl1]
    rfl
  refine ⟨?_, ?_, ?_, ?_, rfl⟩
  · rw [close_stream_out, send_close_packet_out_some 0x41 hsome]
  · exact lookupS_close_stream_self _ sid
  · rw [close_stream_attempts, send_close_packet_attempts]
  · have hl2 : lookupS sid
        (send_close_packet (afterConnect c sid (t :: p0 :: p1 :: host))
          sid 0x41).streams
        = some (fresh_stream (t :: p0 :: p1 :: host)) := by
      rw [send_close_packet_streams]
      exact hl1
    rw [close_stream_of_some hl2]
    show close_tcp (send_close_packet (afterConnect c sid (t :: p0 :: p1 :: host))
      sid 0x41).socks none = c.socks
    rw [send_close_packet_socks]
    rfl

/-- Witness for C7 at scenario 2 of the spec: CONNECT(7, type 2, port 53). -/
theorem C7_invalid_stream_type_witness :
    (run conn0 [Ev.msg (packet_pack 0x01 7 ++ [2, 53, 0]),
        Ev.connectRun 7 true]).1.out
      = conn0.out ++ [packet_pack 0x04 7 ++ packU8 0x41] ∧
    lookupS 7 (run conn0 [Ev.msg (packet_pack 0x01 7 ++ [2, 53, 0]),
        Ev.connectRun 7 true]).1.streams = none ∧
    (run conn0 [Ev.msg (packet_pack 0x01 7 ++ [2, 53, 0]),
        Ev.connectRun 7 true]).1.attempts = conn0.attempts :=
  ⟨(C7_invalid_stream_type conn0 7 2 53 0 [] true (by norm_num) (by norm_num)
      (by norm_num) (by norm_num) (by norm_num) (by decide)).1,
   (C7_invalid_stream_type conn0 7 2 53 0 [] true (by norm_num) (by norm_num)
      (by norm_num) (by norm_num) (by norm_num) (by decide)).2.1,
   (C7_invalid_stream_type conn0 7 2 53 0 [] true (by norm_num) (by norm_num)
      (by norm_num) (by norm_num) (by norm_num) (by decide)).2.2.1⟩

/-- Claim C8 counterexample: a duplicate CONNECT displaces the record holding
socket 0; teardown closes only the socket still referenced by the table, so a
TCP socket owned by the connection remains open after the WebSocket closes. -/
theorem C8_counterexample :
    (run conn0 [Ev.msg (packet_pack 0x01 7 ++ [1, 80, 0]), Ev.connectRun 7 true,
      Ev.msg (packet_pack 0x01 7 ++ [1, 80, 0]), Ev.connectRun 7 true,
      Ev.wsClosed]).1.streams = [] ∧
    (run conn0 [Ev.msg (packet_pack 0x01 7 ++ [1, 80, 0]), Ev.connectRun 7 true,
      Ev.msg (packet_pack 0x01 7 ++ [1, 80, 0]), Ev.connectRun 7 true,
      Ev.wsClosed]).1.socks.get? 0 = some { written := [], closed := false } := by
  refine ⟨by decide, by decide⟩

/-- Claim C8 as amended: when recv reports the WebSocket closed, the
dispatcher closes every stream in the table and exits with the table empty;
if no stream id was carried by more than one CONNECT frame, every TCP socket
the connection opened is closed, but a socket displaced by a duplicate CONNECT
stays open. -/
theorem C8_amended :
    ∀ evs : List Ev, (run conn0 evs).2 = none → Ev.wsClosed ∈ evs →
    (run conn0 evs).1.streams = [] ∧
    ((∀ sid, countConnect sid evs ≤ 1) →
      ∀ s ∈ (run conn0 evs).1.socks, s.closed = true) := by
  intro evs herr hws
  have hnil := run_wsClosed_streams_nil evs conn0 herr hws
  refine ⟨hnil, ?_⟩
  intro hdup s hsmem
  have hinv := StInv_run evs conn0
    ⟨by simp [conn0, keysOf], by intro p hp; simp [conn0] at hp,
     by intro j s2 hj; simp [conn0] at hj⟩
    (by intro p hp; simp [conn0] at hp)
    (by intro sid hk; simp [conn0, keysOf] at hk) hdup
  obtain ⟨_, _, hw⟩ := hinv
  obtain ⟨j, hj⟩ := List.mem_iff_get?.1 hsmem
  rcases hw j s hj with hcl | ⟨p, hp, _⟩
  · exact hcl
  · rw [hnil] at hp
    cases hp

/-- Witness for C8_amended: one stream opened and torn down with the
connection; its TCP socket ends up closed and the table empty. -/
theorem C8_amended_witness :
    (run conn0 [Ev.msg (packet_pack 0x01 7 ++ [1, 80, 0]), Ev.connectRun 7 true,
      Ev.wsClosed]).1.streams = [] ∧
    ∀ s ∈ (run conn0 [Ev.msg (packet_pack 0x01 7 ++ [1, 80, 0]),
      Ev.connectRun 7 true, Ev.wsClosed]).1.socks, s.closed = true := by
  have hdup : ∀ sid, countConnect sid [Ev.msg (packet_pack 0x01 7 ++ [1, 80, 0]),
      Ev.connectRun 7 true, Ev.wsClosed] ≤ 1 := by
    intro sid
    rw [countConnect_cons, countConnect_cons, countConnect_cons]
    have h2 : connect_sid (Ev.connectRun 7 true) = none := rfl
    have h3 : connect_sid Ev.wsClosed = none := rfl
    rw [h2, h3]
    have h4 : (if (none : Option Nat) = some sid then 1 else 0) = 0 := by simp
    simp only [h4]
    have h5 : countConnect sid ([] : List Ev) = 0 := rfl
    rw [h5]
    split
    · omega
    · omega
  have h := C8_amended [Ev.msg (packet_pack 0x01 7 ++ [1, 80, 0]),
    Ev.connectRun 7 true, Ev.wsClosed] (by decide) (by decide)
  exact ⟨h.1, h.2 hdup⟩

/-- Claim C9 (confirmed): `close_stream` on an absent id returns the state
unchanged, closing twice equals closing once, and `send_close_packet` on an
absent id sends nothing (the state, including the outbound log, is unchanged). -/
theorem C9_closure_idempotent :
    ∀ (c : Conn) (sid r : Nat),
    (lookupS sid c.streams = none →
      close_stream c sid = c ∧ send_close_packet c sid r = c) ∧
    close_stream (close_stream c sid) sid = close_stream c sid := by
  intro c sid r
  constructor
  · intro hl
    exact ⟨close_stream_of_none hl, send_close_packet_of_none r hl⟩
  · apply close_stream_of_none
    exact lookupS_close_stream_self c sid

/-- Witness for C9 at concrete states. -/
theorem C9_closure_idempotent_witness :
    close_stream conn0 5 = conn0 ∧ send_close_packet conn0 5 2 = conn0 ∧
    close_stream (close_stream (connWith7 []) 7) 7 = close_stream (connWith7 []) 7 :=
  ⟨((C9_closure_idempotent conn0 5 2).1 rfl).1,
   ((C9_closure_idempotent conn0 5 2).1 rfl).2,
   (C9_closure_idempotent (connWith7 []) 7 2).2⟩

/-- Claim C10 (confirmed): a DATA frame arriving while its stream is still
Connecting (record present, connect task pending) is appended to that stream's
inbound queue, not dropped; and once the stream is open, draining the queue
writes the payloads to the TCP socket in FIFO (arrival) order. -/
theorem C10_connecting_data_enqueued :
    (∀ (c : Conn) (sid : Nat) (st : Stream) (p : Bytes),
      lookupS sid c.streams = some st → st.connect_task.isSome = true →
      sid < 2 ^ 32 →
      handle_msg c (packet_pack 0x02 sid ++ p)
        = ({ c with streams :=
              insertS sid ({ st with queue := st.queue ++ [p] }) c.streams }, none)) ∧
    (∀ (q : List Bytes) (c : Conn) (sid : Nat) (st : Stream) (w : Nat) (s : Sock),
      lookupS sid c.streams = some st → st.ws_to_tcp_task = true →
      st.writer = some w → st.queue = q → c.socks.get? w = some s →
      ∃ st2, lookupS sid (pumpIter sid q.length c).streams = some st2 ∧
        st2.queue = [] ∧ st2.writer = some w ∧
        (pumpIter sid q.length c).socks.get? w
          = some ({ s with written := s.written ++ q })) := by
  constructor
  · intro c sid st p hl hct hs
    have hm : unpack_packet (packet_pack 0x02 sid ++ p) = some (2, sid) :=
      unpack_packet_pack (by norm_num) hs p
    have h := handle_msg_data_some hm hl
    rw [drop5_packet] at h
    exact h
  · exact pumpIter_writes

/-- Stream 7 of `cpend7` after one DATA payload was enqueued while Connecting. -/
def pend9 : Stream := { fresh_stream [1, 80, 0] with queue := [[9]] }

/-- Witness for C10: a DATA frame on the Connecting stream 7 is enqueued, and
pumping an open stream with a two-element queue writes both payloads in
order. -/
theorem C10_connecting_data_enqueued_witness :
    handle_msg cpend7 (packet_pack 0x02 7 ++ [9])
      = ({ cpend7 with streams := insertS 7 pend9 cpend7.streams }, none) ∧
    ∃ st2, lookupS 7 (pumpIter 7 2 (connWith7 [[1], [2]])).streams = some st2 ∧
      st2.queue = [] ∧ st2.writer = some 0 ∧
      (pumpIter 7 2 (connWith7 [[1], [2]])).socks.get? 0
        = some ({ dfltSock with written := [[1], [2]] }) :=
  ⟨(C10_connecting_data_enqueued.1 cpend7 7 (fresh_stream [1, 80, 0]) [9] rfl rfl
      (by norm_num)),
   (C10_connecting_data_enqueued.2 [[1], [2]] (connWith7 [[1], [2]]) 7
      (openStream [[1], [2]]) 0 dfltSock rfl rfl rfl rfl rfl)⟩

end Wisp
